import Mathlib

/-!
Verification of the `DownloadForm` widget logic in
`dss_custom_tools/jupyter_form.py`.

The Python module builds an interactive selection form: it translates a raw
form schema (`_form_json_to_widgets_dict`), builds one toggle button per
option value per field (`_build_form`), wires change callbacks that query a
constraint evaluator and hide/show toggle buttons (`on_change`,
`on_radio_click`), and maintains a selection mapping
(`_update_selection_state`).

This file is a shallow embedding of that logic.  Python dicts are modelled as
insertion-ordered association lists (`List (String × α)`); optional dict keys
become `Option` fields read with `Option.getD`, mirroring `dict.get(k, d)`;
the `ValueError` raised for an unsupported widget type becomes
`Except.error`.  Widget mutation is modelled by explicit state passing over
the fields the callbacks actually touch: each `ToggleButton` carries its
`value` trait and its `layout.display` trait (`none` = the ipywidgets
default, `some "none"` = hidden, `some ""` = shown).
-/

namespace JupyterForm

/-- Lookup in a Python-dict-like association list (`d.get(k)` /
`d[k]` when present): the first pair with the key. -/
def alistLookup {α : Type} (d : List (String × α)) (k : String) : Option α :=
  (d.find? (fun p => decide (p.1 = k))).map (fun p => p.2)

/-- Python `d[k] = v`: replace in place when the key exists (keeping its
position, as dicts do), otherwise append. -/
def alistInsert {α : Type} (d : List (String × α)) (k : String) (v : α) :
    List (String × α) :=
  if k ∈ d.map Prod.fst then d.map (fun p => if p.1 = k then (k, v) else p)
  else d ++ [(k, v)]

/-- Python `d1.update(d2)`. -/
def alistUpdate {α : Type} (d e : List (String × α)) : List (String × α) :=
  e.foldl (fun acc p => alistInsert acc p.1 p.2) d

/-- One entry of a `groups` list in a schema entry's details
(`{labels, values, columns}`, each key optional). -/
structure RawGroup where
  labels : Option (List (String × String)) := none
  values : Option (List String) := none
  columns : Option Nat := none
deriving DecidableEq, Repr

/-- The `details` object of a raw schema entry; every key is optional
(the code reads them with `details.get(…)` or guards with `in`). -/
structure RawDetails where
  labels : Option (List (String × String)) := none
  values : Option (List String) := none
  columns : Option Nat := none
  default : Option (List String) := none
  groups : Option (List RawGroup) := none
deriving DecidableEq, Repr

/-- A raw schema entry (one element of `collection.form`).  The code reads
`name`, `type` and `label` with `widget.get(…, "")` and `details` with
`widget.get("details", {})`, so all are optional here. -/
structure RawWidget where
  name : Option String := none
  type : Option String := none
  label : Option String := none
  details : Option RawDetails := none
deriving DecidableEq, Repr

/-- `widget.get("name", "")` in `_form_json_to_widgets_dict`. -/
def nameD (w : RawWidget) : String := w.name.getD ""

/-- `widget.get("type", "")` in `_form_json_to_widgets_dict`. -/
def typeD (w : RawWidget) : String := w.type.getD ""

/-- The default `ignore_widget_names` argument of `_form_json_to_widgets_dict`. -/
def ignoreWidgetNames : List String := ["download_format", "data_format"]

/-- The default `ignore_widget_types` argument of `_form_json_to_widgets_dict`. -/
def ignoreWidgetTypes : List String :=
  ["ExclusiveGroupWidget", "FreeEditionWidget", "GeographicExtentWidget",
   "GeographicLocationWidget", "LicenceWidget"]

/-- The `widget_map` dict of `_form_json_to_widgets_dict`. -/
def widgetMap : List (String × String) :=
  [("StringListWidget", "checkbox"), ("StringListArrayWidget", "checkbox"),
   ("StringChoiceWidget", "radio")]

/-- `widget_map.get(widget_type, widget_type)`: unrecognized raw types pass
through unchanged. -/
def widgetMapGet (t : String) : String := (alistLookup widgetMap t).getD t

/-- The skip test on line 249: `widget_name in ignore_widget_names or
widget_type in ignore_widget_types`. -/
def isIgnored (w : RawWidget) : Bool :=
  decide (nameD w ∈ ignoreWidgetNames) || decide (typeD w ∈ ignoreWidgetTypes)

/-- The `labels`/`values`/`columns` triple accumulated by the
`for group in details["groups"]` loop. -/
structure FlatGroups where
  labels : List (String × String)
  values : List String
  columns : Nat
deriving DecidableEq, Repr

/-- The `groups` flattening loop (lines 258–264).  Note the values update is
Python's `values += [v for v in group.get("values", []) if v not in values]`:
the comprehension is filtered against the value list as it stood *before*
this group, so a duplicate inside a single group's list is appended twice. -/
def flattenGroups (gs : List RawGroup) : FlatGroups :=
  gs.foldl
    (fun acc g =>
      { labels := alistUpdate acc.labels (g.labels.getD [])
        values := acc.values ++ (g.values.getD []).filter (fun v => decide (v ∉ acc.values))
        columns := max acc.columns (g.columns.getD 1) })
    { labels := [], values := [], columns := 1 }

/-- A translated field, the per-name record `_form_json_to_widgets_dict`
builds (`label` is the stray key kept from the initial
`{k: widget[k] for k in ["label", "type"] if k in widget}` and never read
again; `default` is present iff `"default" in details`). -/
structure FormField where
  label : Option String
  labels : List (String × String)
  values : List String
  title : String
  type : String
  columns : Nat
  default : Option (List String)
deriving DecidableEq, Repr

/-- An all-`none` `RawDetails`, Python's `widget.get("details", {})` default. -/
def emptyDetails : RawDetails := {}

/-- The per-entry translation body of `_form_json_to_widgets_dict`
(lines 253–275). -/
def translateEntry (w : RawWidget) : FormField :=
  let details := w.details.getD emptyDetails
  let flat : FlatGroups :=
    match details.groups with
    | some gs => flattenGroups gs
    | none =>
        { labels := details.labels.getD []
          values := details.values.getD []
          columns := details.columns.getD 1 }
  { label := w.label
    labels := flat.labels
    values := flat.values
    title := w.label.getD ""
    type := widgetMapGet (typeD w)
    columns := flat.columns
    default := details.default }

/-- `_form_json_to_widgets_dict` with its default ignore lists: skip ignored
entries, first occurrence of a name wins, translate the rest in order. -/
def formJsonToWidgetsDict (form : List RawWidget) : List (String × FormField) :=
  form.foldl
    (fun out w =>
      if isIgnored w then out
      else if nameD w ∈ out.map Prod.fst then out
      else out ++ [(nameD w, translateEntry w)])
    []

/-- First-seen-order duplicate removal: the specification's reading of the
`groups` value merge ("concatenate all group value lists while de-duplicating,
keep first occurrence order"), applied to the whole concatenation one value at
a time. -/
def firstSeenDedup (l : List String) : List String :=
  l.foldl (fun acc v => if v ∈ acc then acc else acc ++ [v]) []

/-- Maximum of a list of naturals. -/
def listMax (l : List Nat) : Nat := l.foldr max 0

/-! ## Widget construction (`_build_form`, lines 129–197)

For each translated field, the code builds one `ToggleButton` per option
value (initial `value=False`, layout `display` left at its ipywidgets
default), attaches observers, and then runs the defaults loop
`for tb, opt in zip(buttons, options): tb.value = opt in default_values`.
Because the observers are already attached, an assignment that changes a
radio button's value to `True` immediately forces all its siblings off
(`on_radio_click`).  The checkbox observer (`on_change`) never touches
button values, only `layout.display` of already-registered widgets. -/

/-- One `widgets.ToggleButton` as the callbacks see it: its `value` trait and
its `layout.display` trait (`none` = the ipywidgets default, `some "none"` =
hidden, `some ""` = shown). -/
structure ToggleButton where
  value : Bool
  display : Option String
deriving DecidableEq, Repr

/-- The internal control kind a stored widget was built with: `_build_form`
accepts exactly the strings `"checkbox"` and `"radio"` and raises for
anything else. -/
inductive ControlKind where
  | checkbox
  | radio
deriving DecidableEq, Repr

/-- One entry of `self.widget_defs`: the `VBox` with its `GridBox` of toggle
buttons, together with the option list and the kind captured by the attached
`_get_value` closure.  `options` is the captured `opts = f_widget["values"]`
of the field it was built from. -/
structure FieldControl where
  kind : ControlKind
  options : List String
  buttons : List ToggleButton
deriving DecidableEq, Repr

/-- The fresh buttons of line 135–143: one per option, `value=False`,
layout display unset. -/
def initButtons (options : List String) : List ToggleButton :=
  options.map (fun _ => { value := false, display := none })

/-- Assign `value := b` to the button at index `i`, leaving everything else
alone (out-of-range: no button, nothing happens). -/
def setValueAt : List ToggleButton → Nat → Bool → List ToggleButton
  | [], _, _ => []
  | tb :: rest, 0, b => { tb with value := b } :: rest
  | tb :: rest, i + 1, b => tb :: setValueAt rest i b

/-- The combined effect of setting button `i` of a radio group to `True`
while `on_radio_click` is attached: the owner ends `True`, every sibling is
forced to `False`. -/
def exclusiveOn : List ToggleButton → Nat → List ToggleButton
  | [], _ => []
  | tb :: rest, 0 =>
      { tb with value := true } :: rest.map (fun t => { t with value := false })
  | tb :: rest, i + 1 => { tb with value := false } :: exclusiveOn rest i

/-- `tb.value = b` on button `i` of a radio group, observer semantics
included: traitlets fires the observer only when the value actually changes,
and `on_radio_click` clears the siblings only when the new value is `True`
(`if change["new"]:`).  Setting the same value again, or a nonexistent
index, changes nothing. -/
def radioAssign (tbs : List ToggleButton) (i : Nat) (b : Bool) :
    List ToggleButton :=
  match tbs.get? i with
  | none => tbs
  | some tb =>
      if tb.value = b then tbs
      else if b then exclusiveOn tbs i else setValueAt tbs i b

/-- The defaults loop for a checkbox field: `on_change` never writes button
values, so each zipped button simply receives `opt in default_values`. -/
def checkboxDefaults (defaults : List String) :
    List ToggleButton → List String → List ToggleButton
  | tbs, [] => tbs
  | [], _ => []
  | tb :: tbs, opt :: opts =>
      { tb with value := decide (opt ∈ defaults) } :: checkboxDefaults defaults tbs opts

/-- The defaults loop for a radio field, one `radioAssign` per zipped
`(button, option)` pair in order; `i` is the index of the current pair. -/
def radioDefaultsAux (defaults : List String) (i : Nat) (opts : List String)
    (tbs : List ToggleButton) : List ToggleButton :=
  match opts with
  | [] => tbs
  | opt :: rest =>
      radioDefaultsAux defaults (i + 1) rest
        (radioAssign tbs i (decide (opt ∈ defaults)))

/-- The defaults loop (lines 190–192) for a radio field: with
`on_radio_click` attached, each assignment that turns a button on forces the
others off, so a later default overrides an earlier one. -/
def radioDefaults (defaults : List String) (tbs : List ToggleButton)
    (opts : List String) : List ToggleButton :=
  radioDefaultsAux defaults 0 (opts.take tbs.length) tbs

/-- `get_value` for a checkbox field (lines 147–148):
`[opt for opt, tb in zip(opts, tb_list) if tb.value]`. -/
def checkboxGetValue : List String → List ToggleButton → List String
  | opt :: opts, tb :: tbs =>
      if tb.value then opt :: checkboxGetValue opts tbs
      else checkboxGetValue opts tbs
  | _, _ => []

/-- `get_value` for a radio field (lines 169–173): the first zipped option
whose toggle is on, as a singleton, else `[]`. -/
def radioGetValue : List String → List ToggleButton → List String
  | opt :: opts, tb :: tbs =>
      if tb.value then [opt] else radioGetValue opts tbs
  | _, _ => []

/-- The `_get_value` closure a stored widget carries. -/
def getValue (c : FieldControl) : List String :=
  match c.kind with
  | ControlKind.checkbox => checkboxGetValue c.options c.buttons
  | ControlKind.radio => radioGetValue c.options c.buttons

/-- The per-field body of the construction loop of `_build_form`
(lines 129–195): build the buttons, apply the defaults under the attached
observers, and fail with the `ValueError` message of line 176 when the
translated type is neither `"checkbox"` nor `"radio"`. -/
def buildControl (f : FormField) : Except String FieldControl :=
  let options := f.values
  let buttons := initButtons options
  if f.type = "checkbox" then
    Except.ok
      { kind := ControlKind.checkbox, options := options,
        buttons := checkboxDefaults (f.default.getD []) buttons options }
  else if f.type = "radio" then
    Except.ok
      { kind := ControlKind.radio, options := options,
        buttons := radioDefaults (f.default.getD []) buttons options }
  else Except.error ("Unsupported widget type: " ++ f.type)

/-- The whole construction loop: `widget_defs` in insertion order, or the
first `ValueError`.  The raise aborts `_build_form` before anything is
displayed, so an error carries no partial form. -/
def buildForm : List (String × FormField) → Except String (List (String × FieldControl))
  | [] => Except.ok []
  | (k, f) :: rest => do
      let c ← buildControl f
      let others ← buildForm rest
      pure ((k, c) :: others)

/-! ## Change propagation (`on_change`, lines 94–127)

Every widget stored in `widget_defs` is a `VBox` whose `children[1]` is the
`GridBox` of toggle buttons (built at lines 178–188 for checkbox *and* radio
fields alike), so the first branch of the `isinstance` dispatch in
`on_change` (lines 108–117) applies to every stored widget; the
`widgets.RadioButtons` and `widgets.SelectMultiple` branches are unreachable
for them.  The update of one field therefore always is: hide every toggle
button, then re-show the ones zipped against an option in the allowed list.
`f_widget["values"]` in that zip is the same list as the `options` captured
by the field's closures (line 131), which `FieldControl.options` records. -/

/-- The first loop of the `GridBox` branch:
`for tb in widget.children[1].children: tb.layout.display = "none"`. -/
def hideAll (tbs : List ToggleButton) : List ToggleButton :=
  tbs.map (fun tb => { tb with display := some "none" })

/-- The second loop of the `GridBox` branch:
`for tb, opt in zip(…, f_widget["values"]): if opt in values:
tb.layout.display = ""`. -/
def showAllowed : List ToggleButton → List String → List String → List ToggleButton
  | [], _, _ => []
  | tbs, [], _ => tbs
  | tb :: tbs, opt :: opts, allowed =>
      (if opt ∈ allowed then { tb with display := some "" } else tb)
        :: showAllowed tbs opts allowed

/-- What `on_change` does to one stored widget named in the constraint
response: hide everything, then show the buttons whose option is allowed.
Button values are untouched. -/
def updateDisplays (c : FieldControl) (allowed : List String) : FieldControl :=
  { c with buttons := showAllowed (hideAll c.buttons) c.options allowed }

/-- One iteration of the `for key, values in allowed_options.items()` loop:
the `if key in self.widget_defs` guard means a response key with no stored
widget changes nothing (and raises nothing: the preceding
`form_widgets.get(key, {})` read is a defaulted `get`). -/
def onChangeStep (wd : List (String × FieldControl)) (kv : String × List String) :
    List (String × FieldControl) :=
  wd.map (fun p => if p.1 = kv.1 then (p.1, updateDisplays p.2 kv.2) else p)

/-- The whole response loop of `on_change` (lines 103–124), the constraint
evaluator's response taken as input. -/
def onChangeUpdate (wd : List (String × FieldControl))
    (response : List (String × List String)) : List (String × FieldControl) :=
  response.foldl onChangeStep wd

/-- `_update_selection_state` (lines 220–226): the public request maps each
stored field name to its extracted value, keeping only truthy (non-empty)
values. -/
def updateSelectionState (wd : List (String × FieldControl)) :
    List (String × List String) :=
  (wd.map (fun p => (p.1, getValue p.2))).filter (fun p => !p.2.isEmpty)

/-! ## One user interaction

A click flips one toggle button's value.  For a checkbox field the observer
(`on_change`) runs on every change; for a radio field `on_radio_click` runs
`on_change` only when the new value is `True` — a radio toggle switched off
triggers no recompute, so `self.request` keeps its previous value then. -/

/-- The value assignment a click performs on the stored control. -/
def clickAssign (c : FieldControl) (i : Nat) (b : Bool) : FieldControl :=
  match c.kind with
  | ControlKind.checkbox => { c with buttons := setValueAt c.buttons i b }
  | ControlKind.radio => { c with buttons := radioAssign c.buttons i b }

/-- The controller state the callbacks govern: the stored widgets and the
public `self.request` mapping. -/
structure ControllerState where
  widget_defs : List (String × FieldControl)
  request : List (String × List String)
deriving DecidableEq, Repr

/-- The state right after `_build_form` finished: fresh widgets, and the
`_update_selection_state()` call of line 197. -/
def initialState (wd : List (String × FieldControl)) : ControllerState :=
  { widget_defs := wd, request := updateSelectionState wd }

/-- One user click on button `i` of field `key`, flipping that button, with
`response` standing for what `collection.apply_constraints` returns if the
change callback runs.  A radio button clicked *off* skips `on_change`
entirely: displays stay, and `self.request` is not recomputed. -/
def clickStep (st : ControllerState)
    (ev : String × Nat × List (String × List String)) : ControllerState :=
  match alistLookup st.widget_defs ev.1 with
  | none => st
  | some c =>
      match c.buttons.get? ev.2.1 with
      | none => st
      | some tb =>
          let b := !tb.value
          let wd1 := st.widget_defs.map
            (fun p => if p.1 = ev.1 then (p.1, clickAssign p.2 ev.2.1 b) else p)
          match c.kind, b with
          | ControlKind.radio, false =>
              { widget_defs := wd1, request := st.request }
          | _, _ =>
              let wd2 := onChangeUpdate wd1 ev.2.2
              { widget_defs := wd2, request := updateSelectionState wd2 }

/-- Number of toggle buttons currently on. -/
def countOn (tbs : List ToggleButton) : Nat :=
  (tbs.filter (fun tb => tb.value)).length

/-- The `value` trait of the button at index `j` (false when there is no
such button). -/
def valueAt (tbs : List ToggleButton) (j : Nat) : Bool :=
  match tbs.get? j with
  | some tb => tb.value
  | none => false

/-- The `layout.display` trait of the button at index `j` (`none` when there
is no such button). -/
def displayAt (tbs : List ToggleButton) (j : Nat) : Option String :=
  match tbs.get? j with
  | some tb => tb.display
  | none => none

/-! ## Concrete examples used by counterexamples and witnesses -/

/-- A schema entry whose raw type maps to no known kind. -/
def exUnsupportedEntry : RawWidget :=
  { name := some "g", type := some "FooWidget",
    details := some { values := some ["v"] } }

/-- A one-entry schema with an unsupported raw type. -/
def exUnsupportedForm : List RawWidget := [exUnsupportedEntry]

/-- First entry of the duplicate-name schema: a plain checkbox field. -/
def exDupFirstEntry : RawWidget :=
  { name := some "x", type := some "StringListWidget",
    details := some { values := some ["v"] } }

/-- Second entry of the duplicate-name schema: same name, ignored type. -/
def exLicenceEntry : RawWidget :=
  { name := some "x", type := some "LicenceWidget" }

/-- A schema where a name is declared once normally and once with an
ignored type. -/
def exDupNameForm : List RawWidget := [exDupFirstEntry, exLicenceEntry]

/-- A schema entry carrying only an ignored name. -/
def exIgnoredNameEntry : RawWidget :=
  { name := some "download_format", type := some "StringListWidget" }

/-- A group whose own value list holds a duplicate. -/
def exDupGroup : RawGroup := { values := some ["x", "x"] }

/-- A schema entry whose grouped details repeat a value inside one group. -/
def exDupGroupEntry : RawWidget :=
  { name := some "h", type := some "StringListWidget",
    details := some { groups := some [exDupGroup] } }

/-- The two groups of the specification's worked example. -/
def exGroupA : RawGroup := { values := some ["x", "y"], columns := some 2 }

/-- Second group of the specification's worked example. -/
def exGroupB : RawGroup := { values := some ["y", "z"], columns := some 3 }

/-- A schema entry carrying the specification's example groups. -/
def exGroupsEntry : RawWidget :=
  { name := some "h", type := some "StringListWidget",
    details := some { groups := some [exGroupA, exGroupB] } }

/-- A radio field declaring two default values. -/
def exMultiDefaultField : FormField :=
  { label := none, labels := [], values := ["a", "b"], title := "t",
    type := "radio", columns := 1, default := some ["a", "b"] }

/-- A checkbox field with one default value. -/
def exCheckboxField : FormField :=
  { label := none, labels := [("a", "Alpha")], values := ["a", "b"], title := "t",
    type := "checkbox", columns := 1, default := some ["b"] }

/-- What construction yields for `exCheckboxField`. -/
def exCheckboxControl : FieldControl :=
  { kind := ControlKind.checkbox, options := ["a", "b"],
    buttons := [{ value := false, display := none },
                { value := true, display := none }] }

/-- The stored control of the C4/C8 example field before any toggling. -/
def exVariableControl : FieldControl :=
  { kind := ControlKind.checkbox, options := ["a", "b"],
    buttons := [{ value := false, display := none },
                { value := false, display := none }] }

/-- A one-field `widget_defs` with the C4/C8 example control. -/
def exVariableWd : List (String × FieldControl) := [("variable", exVariableControl)]

/-- The schema of the C1 counterexample: one radio field with options
`["a", "b"]` and default `["a"]`. -/
def exRadioForm : List RawWidget :=
  [{ name := some "f", type := some "StringChoiceWidget",
     details := some { values := some ["a", "b"], default := some ["a"] } }]

/-- The stored radio control of the C1 witness: `"a"` chosen. -/
def exRadioControl : FieldControl :=
  { kind := ControlKind.radio, options := ["a", "b"],
    buttons := [{ value := true, display := none },
                { value := false, display := none }] }

/-- A one-field `widget_defs` holding the C1 radio control. -/
def exRadioWd : List (String × FieldControl) := [("f", exRadioControl)]

/-- The schema of the C7 counterexample: a single one-option radio field. -/
def exRadioOffForm : List RawWidget :=
  [{ name := some "g", type := some "StringChoiceWidget",
     details := some { values := some ["a"] } }]

/-- The schema of the specification's checkbox scenario (also the C7
witness). -/
def exVariableForm : List RawWidget :=
  [{ name := some "variable", type := some "StringListWidget",
     details := some { values := some ["a", "b"], labels := some [("a", "Alpha")] } }]

/-! ## Pointwise lemmas about the button operations -/

lemma setValueAt_length (b : Bool) :
    ∀ (tbs : List ToggleButton) (i : Nat), (setValueAt tbs i b).length = tbs.length := by
  intro tbs
  induction tbs with
  | nil => intro i; rfl
  | cons tb rest ih =>
      intro i
      cases i with
      | zero => rfl
      | succ i => simp [setValueAt, ih i]

lemma exclusiveOn_length :
    ∀ (tbs : List ToggleButton) (i : Nat), (exclusiveOn tbs i).length = tbs.length := by
  intro tbs
  induction tbs with
  | nil => intro i; rfl
  | cons tb rest ih =>
      intro i
      cases i with
      | zero => simp [exclusiveOn]
      | succ i => simp [exclusiveOn, ih i]

lemma radioAssign_length (tbs : List ToggleButton) (i : Nat) (b : Bool) :
    (radioAssign tbs i b).length = tbs.length := by
  rw [radioAssign]
  cases h : tbs.get? i with
  | none => rfl
  | some tb =>
      dsimp only
      by_cases hv : tb.value = b
      · rw [if_pos hv]
      · rw [if_neg hv]
        cases b with
        | true => simp [exclusiveOn_length]
        | false => simp [setValueAt_length]

lemma valueAt_cons_succ (tb : ToggleButton) (rest : List ToggleButton) (j : Nat) :
    valueAt (tb :: rest) (j + 1) = valueAt rest j := rfl

lemma valueAt_exclusiveOn :
    ∀ (tbs : List ToggleButton) (i j : Nat),
      valueAt (exclusiveOn tbs i) j = (decide (j = i) && decide (j < tbs.length)) := by
  intro tbs
  induction tbs with
  | nil => intro i j; simp [exclusiveOn, valueAt]
  | cons tb rest ih =>
      intro i j
      cases i with
      | zero =>
          cases j with
          | zero => simp [exclusiveOn, valueAt]
          | succ j =>
              show valueAt (rest.map (fun t => { t with value := false })) j = _
              simp only [valueAt, List.get?_map]
              cases rest.get? j <;> simp
      | succ i =>
          cases j with
          | zero => simp [exclusiveOn, valueAt]
          | succ j =>
              show valueAt (exclusiveOn rest i) j = _
              rw [ih i j]
              simp [Nat.succ_lt_succ_iff]

lemma valueAt_setValueAt_self (b : Bool) :
    ∀ (tbs : List ToggleButton) (i : Nat), i < tbs.length →
      valueAt (setValueAt tbs i b) i = b := by
  intro tbs
  induction tbs with
  | nil => intro i h; cases h
  | cons tb rest ih =>
      intro i h
      cases i with
      | zero => simp [setValueAt, valueAt]
      | succ i =>
          show valueAt (setValueAt rest i b) i = b
          exact ih i (Nat.lt_of_succ_lt_succ h)

lemma valueAt_setValueAt_ne (b : Bool) :
    ∀ (tbs : List ToggleButton) (i j : Nat), j ≠ i →
      valueAt (setValueAt tbs i b) j = valueAt tbs j := by
  intro tbs
  induction tbs with
  | nil => intro i j _; rfl
  | cons tb rest ih =>
      intro i j hne
      cases i with
      | zero =>
          cases j with
          | zero => exact absurd rfl hne
          | succ j => rfl
      | succ i =>
          cases j with
          | zero => rfl
          | succ j =>
              show valueAt (setValueAt rest i b) j = valueAt rest j
              exact ih i j (fun h => hne (by rw [h]))

lemma setValueAt_of_ge (b : Bool) :
    ∀ (tbs : List ToggleButton) (i : Nat), tbs.length ≤ i →
      setValueAt tbs i b = tbs := by
  intro tbs
  induction tbs with
  | nil => intro i _; rfl
  | cons tb rest ih =>
      intro i h
      cases i with
      | zero => cases h
      | succ i =>
          rw [setValueAt, ih i (Nat.le_of_succ_le_succ h)]

lemma valueAt_of_ge :
    ∀ (tbs : List ToggleButton) (j : Nat), tbs.length ≤ j → valueAt tbs j = false := by
  intro tbs j h
  rw [valueAt]
  rw [List.get?_eq_none.mpr h]

/-! ## `countOn` invariants (radio mutual exclusion) -/

lemma countOn_cons (tb : ToggleButton) (rest : List ToggleButton) :
    countOn (tb :: rest) = (if tb.value then 1 else 0) + countOn rest := by
  rw [countOn, countOn, List.filter_cons]
  by_cases h : tb.value
  · simp [h]; omega
  · simp [h]

lemma countOn_map_false (tbs : List ToggleButton) :
    countOn (tbs.map (fun t => { t with value := false })) = 0 := by
  induction tbs with
  | nil => rfl
  | cons tb rest ih => simp [List.map_cons, countOn_cons, ih]

lemma countOn_exclusiveOn :
    ∀ (tbs : List ToggleButton) (i : Nat), countOn (exclusiveOn tbs i) ≤ 1 := by
  intro tbs
  induction tbs with
  | nil => intro i; rw [exclusiveOn]; exact Nat.zero_le 1
  | cons tb rest ih =>
      intro i
      cases i with
      | zero =>
          rw [exclusiveOn, countOn_cons, countOn_map_false]
          simp
      | succ i =>
          rw [exclusiveOn, countOn_cons]
          simpa using ih i

lemma countOn_setValueAt_false :
    ∀ (tbs : List ToggleButton) (i : Nat),
      countOn (setValueAt tbs i false) ≤ countOn tbs := by
  intro tbs
  induction tbs with
  | nil => intro i; exact Nat.le_refl _
  | cons tb rest ih =>
      intro i
      cases i with
      | zero =>
          rw [setValueAt, countOn_cons, countOn_cons]
          show (0 : Nat) + countOn rest ≤ (if tb.value = true then 1 else 0) + countOn rest
          omega
      | succ i =>
          rw [setValueAt, countOn_cons, countOn_cons]
          have := ih i
          omega

lemma countOn_radioAssign {tbs : List ToggleButton} (h : countOn tbs ≤ 1)
    (i : Nat) (b : Bool) : countOn (radioAssign tbs i b) ≤ 1 := by
  rw [radioAssign]
  cases hg : tbs.get? i with
  | none => exact h
  | some tb =>
      dsimp only
      by_cases hv : tb.value = b
      · rw [if_pos hv]; exact h
      · rw [if_neg hv]
        cases b with
        | true => simpa using countOn_exclusiveOn tbs i
        | false =>
            show countOn (setValueAt tbs i false) ≤ 1
            exact Nat.le_trans (countOn_setValueAt_false tbs i) h

lemma countOn_radioDefaultsAux (ds : List String) :
    ∀ (opts : List String) (i : Nat) (tbs : List ToggleButton),
      countOn tbs ≤ 1 → countOn (radioDefaultsAux ds i opts tbs) ≤ 1 := by
  intro opts
  induction opts with
  | nil => intro i tbs h; exact h
  | cons opt rest ih =>
      intro i tbs h
      rw [radioDefaultsAux]
      exact ih (i + 1) _ (countOn_radioAssign h i _)

lemma countOn_initButtons (options : List String) :
    countOn (initButtons options) = 0 := by
  induction options with
  | nil => rfl
  | cons o rest ih => simp [initButtons, List.map_cons, countOn_cons] at *; exact ih

lemma countOn_radioDefaults (ds : List String) (opts : List String) :
    countOn (radioDefaults ds (initButtons opts) opts) ≤ 1 := by
  rw [radioDefaults]
  exact countOn_radioDefaultsAux ds _ 0 _ (by rw [countOn_initButtons]; exact Nat.zero_le 1)

/-! ## Characterizing the radio defaults loop (last default wins) -/

lemma initButtons_length (options : List String) :
    (initButtons options).length = options.length := List.length_map _ _

lemma valueAt_initButtons (options : List String) (k : Nat) :
    valueAt (initButtons options) k = false := by
  rw [valueAt, initButtons, List.get?_map]
  cases options.get? k <;> rfl

lemma checkboxDefaults_length (ds : List String) :
    ∀ (tbs : List ToggleButton) (opts : List String),
      (checkboxDefaults ds tbs opts).length = tbs.length := by
  intro tbs
  induction tbs with
  | nil => intro opts; cases opts <;> rfl
  | cons tb rest ih =>
      intro opts
      cases opts with
      | nil => rfl
      | cons opt rest' => simp [checkboxDefaults, ih rest']

lemma radioDefaultsAux_length (ds : List String) :
    ∀ (opts : List String) (i : Nat) (tbs : List ToggleButton),
      (radioDefaultsAux ds i opts tbs).length = tbs.length := by
  intro opts
  induction opts with
  | nil => intro i tbs; rfl
  | cons opt rest ih =>
      intro i tbs
      rw [radioDefaultsAux, ih (i + 1), radioAssign_length]

lemma radioDefaults_length (ds : List String) (opts : List String) :
    (radioDefaults ds (initButtons opts) opts).length = opts.length := by
  rw [radioDefaults, radioDefaultsAux_length, initButtons_length]

lemma checkboxDefaults_valueAt (ds : List String) :
    ∀ (tbs : List ToggleButton) (opts : List String) (j : Nat) (h : j < opts.length),
      j < tbs.length →
      valueAt (checkboxDefaults ds tbs opts) j = decide (opts.get ⟨j, h⟩ ∈ ds) := by
  intro tbs
  induction tbs with
  | nil => intro opts j _ hj; cases hj
  | cons tb rest ih =>
      intro opts j h hj
      cases opts with
      | nil => cases h
      | cons opt rest' =>
          cases j with
          | zero => rfl
          | succ j =>
              show valueAt (checkboxDefaults ds rest rest') j = _
              exact ih rest' j (Nat.lt_of_succ_lt_succ h) (Nat.lt_of_succ_lt_succ hj)

lemma radioAssign_on_of_off {tbs : List ToggleButton} {i : Nat}
    (h : i < tbs.length) (hv : valueAt tbs i = false) :
    radioAssign tbs i true = exclusiveOn tbs i := by
  rw [radioAssign]
  cases hg : tbs.get? i with
  | none =>
      exact absurd (List.get?_eq_none.mp hg) (Nat.not_le_of_lt h)
  | some tb =>
      simp only [valueAt, hg] at hv
      dsimp only
      rw [if_neg (by rw [hv]; exact Bool.false_ne_true)]
      rfl

lemma radioAssign_off_of_off {tbs : List ToggleButton} {i : Nat}
    (hv : valueAt tbs i = false) :
    radioAssign tbs i false = tbs := by
  rw [radioAssign]
  cases hg : tbs.get? i with
  | none => rfl
  | some tb =>
      simp only [valueAt, hg] at hv
      dsimp only
      rw [if_pos hv]

lemma radioDefaultsAux_append (ds : List String) (o : String) :
    ∀ (opts : List String) (i : Nat) (tbs : List ToggleButton),
      radioDefaultsAux ds i (opts ++ [o]) tbs =
        radioAssign (radioDefaultsAux ds i opts tbs) (i + opts.length)
          (decide (o ∈ ds)) := by
  intro opts
  induction opts with
  | nil =>
      intro i tbs
      simp [radioDefaultsAux]
  | cons opt rest ih =>
      intro i tbs
      rw [List.cons_append, radioDefaultsAux, ih (i + 1), radioDefaultsAux]
      congr 1
      rw [List.length_cons]
      omega

lemma get_append_singleton_lt (l : List String) (o : String) :
    ∀ (j : Nat) (h : j < l.length) (h2 : j < (l ++ [o]).length),
      (l ++ [o]).get ⟨j, h2⟩ = l.get ⟨j, h⟩ := by
  induction l with
  | nil => intro j h _; cases h
  | cons a rest ih =>
      intro j h h2
      cases j with
      | zero => rfl
      | succ j => exact ih j (Nat.lt_of_succ_lt_succ h) (Nat.lt_of_succ_lt_succ h2)

lemma get_append_singleton_last (l : List String) (o : String) :
    ∀ h : l.length < (l ++ [o]).length,
      (l ++ [o]).get ⟨l.length, h⟩ = o := by
  induction l with
  | nil => intro h; rfl
  | cons a rest ih =>
      intro h
      exact ih (Nat.lt_of_succ_lt_succ h)

lemma radioDefaultsAux_valueAt (ds : List String) :
    ∀ (opts : List String) (tbs : List ToggleButton),
      (∀ k, valueAt tbs k = false) →
      opts.length ≤ tbs.length →
      ∀ j, (valueAt (radioDefaultsAux ds 0 opts tbs) j = true ↔
        ∃ h : j < opts.length, opts.get ⟨j, h⟩ ∈ ds ∧
          ∀ u (hu : u < opts.length), j < u → opts.get ⟨u, hu⟩ ∉ ds) := by
  intro opts
  induction opts using List.reverseRecOn with
  | nil =>
      intro tbs hall _ j
      rw [radioDefaultsAux, hall j]
      simp
  | append_singleton l o ih =>
      intro tbs hall hlen j
      have hL : (l ++ [o]).length = l.length + 1 := by
        rw [List.length_append, List.length_singleton]
      have hstrict : l.length < tbs.length := by omega
      have hlenl : l.length ≤ tbs.length := Nat.le_of_lt hstrict
      have hM := ih tbs hall hlenl
      have hMlen : (radioDefaultsAux ds 0 l tbs).length = tbs.length :=
        radioDefaultsAux_length ds l 0 tbs
      have hMtop : valueAt (radioDefaultsAux ds 0 l tbs) l.length = false := by
        cases hcase : valueAt (radioDefaultsAux ds 0 l tbs) l.length with
        | false => rfl
        | true =>
            rcases (hM l.length).mp hcase with ⟨h, _⟩
            exact absurd h (Nat.lt_irrefl _)
      have hLlt : l.length < (l ++ [o]).length := by omega
      have hgetlast : (l ++ [o]).get ⟨l.length, hLlt⟩ = o :=
        get_append_singleton_last l o hLlt
      rw [radioDefaultsAux_append, Nat.zero_add]
      by_cases ho : o ∈ ds
      · rw [decide_eq_true ho,
          radioAssign_on_of_off (by rw [hMlen]; exact hstrict) hMtop,
          valueAt_exclusiveOn]
        constructor
        · intro hj
          rw [Bool.and_eq_true, decide_eq_true_eq, decide_eq_true_eq] at hj
          obtain ⟨hj1, _⟩ := hj
          subst hj1
          refine ⟨hLlt, ?_, ?_⟩
          · rw [hgetlast]; exact ho
          · intro u hu hgt
            exact absurd hgt (by omega)
        · rintro ⟨h, hmem, hafter⟩
          have hjL : j = l.length := by
            by_contra hne
            have hjl : j < l.length := by omega
            exact (hgetlast ▸ hafter l.length hLlt hjl) ho
          subst hjL
          rw [Bool.and_eq_true, decide_eq_true_eq, decide_eq_true_eq]
          exact ⟨rfl, by omega⟩
      · rw [decide_eq_false ho, radioAssign_off_of_off hMtop, hM j]
        constructor
        · rintro ⟨h, hmem, hafter⟩
          have h2 : j < (l ++ [o]).length := by omega
          refine ⟨h2, ?_, ?_⟩
          · rw [get_append_singleton_lt l o j h h2]; exact hmem
          · intro u hu hgt
            by_cases hul : u < l.length
            · rw [get_append_singleton_lt l o u hul hu]
              exact hafter u hul hgt
            · have huL : u = l.length := by omega
              subst huL
              rw [get_append_singleton_last l o hu]
              exact ho
        · rintro ⟨h, hmem, hafter⟩
          have hjl : j < l.length := by
            by_contra hge
            have hjL : j = l.length := by omega
            subst hjL
            exact ho (hgetlast ▸ hmem)
          refine ⟨hjl, ?_, ?_⟩
          · rw [← get_append_singleton_lt l o j hjl h]; exact hmem
          · intro u hu hgt
            have h2 : u < (l ++ [o]).length := by omega
            exact (get_append_singleton_lt l o u hu h2) ▸ hafter u h2 hgt

lemma radioGetValue_length :
    ∀ (opts : List String) (tbs : List ToggleButton),
      (radioGetValue opts tbs).length ≤ 1 := by
  intro opts
  induction opts with
  | nil => intro tbs; cases tbs <;> exact Nat.zero_le 1
  | cons opt rest ih =>
      intro tbs
      cases tbs with
      | nil => exact Nat.zero_le 1
      | cons tb tbs' =>
          rw [radioGetValue]
          by_cases h : tb.value
          · rw [if_pos h]; exact Nat.le_refl 1
          · rw [if_neg h]; exact ih tbs'

lemma radioGetValue_nil_iff :
    ∀ (opts : List String) (tbs : List ToggleButton),
      (radioGetValue opts tbs = [] ↔ ∀ p ∈ opts.zip tbs, p.2.value = false) := by
  intro opts
  induction opts with
  | nil => intro tbs; cases tbs <;> simp [radioGetValue]
  | cons opt rest ih =>
      intro tbs
      cases tbs with
      | nil => simp [radioGetValue]
      | cons tb tbs' =>
          rw [radioGetValue, List.zip_cons_cons]
          by_cases h : tb.value
          · rw [if_pos h]
            simp only [List.mem_cons, forall_eq_or_imp]
            constructor
            · intro habs; cases habs
            · intro ⟨h1, _⟩; rw [h] at h1; cases h1
          · rw [if_neg h]
            simp only [List.mem_cons, forall_eq_or_imp]
            rw [ih tbs']
            constructor
            · intro hall
              exact ⟨by simpa using h, hall⟩
            · intro ⟨_, hall⟩; exact hall

lemma radioGetValue_singleton_iff :
    ∀ (opts : List String) (tbs : List ToggleButton) (o : String),
      (radioGetValue opts tbs = [o] ↔
        ∃ (i : Nat) (h1 : i < opts.length) (h2 : i < tbs.length),
          opts.get ⟨i, h1⟩ = o ∧ (tbs.get ⟨i, h2⟩).value = true ∧
            ∀ u (hu : u < tbs.length), u < i → (tbs.get ⟨u, hu⟩).value = false) := by
  intro opts
  induction opts with
  | nil =>
      intro tbs o
      cases tbs <;> simp [radioGetValue]
  | cons opt rest ih =>
      intro tbs o
      cases tbs with
      | nil => simp [radioGetValue]
      | cons tb tbs' =>
          rw [radioGetValue]
          by_cases h : tb.value
          · rw [if_pos h]
            constructor
            · intro heq
              have ho : opt = o := by
                simpa using heq
              exact ⟨0, Nat.succ_pos _, Nat.succ_pos _, ho, h, by intro u _ hu; cases hu⟩
            · rintro ⟨i, h1, h2, hopt, hval, hbefore⟩
              cases i with
              | zero => exact congrArg (fun x => [x]) hopt
              | succ i =>
                  have := hbefore 0 (Nat.succ_pos _) (Nat.succ_pos _)
                  rw [show ((tb :: tbs').get ⟨0, Nat.succ_pos _⟩) = tb from rfl] at this
                  rw [h] at this
                  cases this
          · rw [if_neg h]
            rw [ih tbs' o]
            constructor
            · rintro ⟨i, h1, h2, hopt, hval, hbefore⟩
              refine ⟨i + 1, Nat.succ_lt_succ h1, Nat.succ_lt_succ h2, hopt, hval, ?_⟩
              intro u hu hlt
              cases u with
              | zero => simpa using h
              | succ u =>
                  exact hbefore u (Nat.lt_of_succ_lt_succ hu) (Nat.lt_of_succ_lt_succ hlt)
            · rintro ⟨i, h1, h2, hopt, hval, hbefore⟩
              cases i with
              | zero =>
                  exfalso
                  rw [show ((tb :: tbs').get ⟨0, h2⟩) = tb from rfl] at hval
                  rw [hval] at h
                  exact h rfl
              | succ i =>
                  refine ⟨i, Nat.lt_of_succ_lt_succ h1, Nat.lt_of_succ_lt_succ h2,
                    hopt, hval, ?_⟩
                  intro u hu hlt
                  exact hbefore (u + 1) (Nat.succ_lt_succ hu) (Nat.succ_lt_succ hlt)

lemma countOn_foldl_radioAssign (events : List (Nat × Bool)) :
    ∀ {tbs : List ToggleButton}, countOn tbs ≤ 1 →
      countOn (events.foldl (fun s e => radioAssign s e.1 e.2) tbs) ≤ 1 := by
  induction events with
  | nil => intro tbs h; exact h
  | cons e rest ih =>
      intro tbs h
      rw [List.foldl_cons]
      exact ih (countOn_radioAssign h e.1 e.2)

lemma radioDefaults_valueAt (ds : List String) (opts : List String) (j : Nat) :
    valueAt (radioDefaults ds (initButtons opts) opts) j = true ↔
      ∃ h : j < opts.length, opts.get ⟨j, h⟩ ∈ ds ∧
        ∀ u (hu : u < opts.length), j < u → opts.get ⟨u, hu⟩ ∉ ds := by
  rw [radioDefaults, initButtons_length, List.take_length]
  exact radioDefaultsAux_valueAt ds opts (initButtons opts)
    (valueAt_initButtons opts) (by rw [initButtons_length]) j

/-! ## Lemmas about the constraint-response update (`on_change`) -/

lemma showAllowed_length :
    ∀ (tbs : List ToggleButton) (opts allowed : List String),
      (showAllowed tbs opts allowed).length = tbs.length := by
  intro tbs
  induction tbs with
  | nil => intro opts allowed; cases opts <;> rfl
  | cons tb rest ih =>
      intro opts allowed
      cases opts with
      | nil => rfl
      | cons opt opts' => simp [showAllowed, ih opts']

lemma hideAll_length (tbs : List ToggleButton) :
    (hideAll tbs).length = tbs.length := List.length_map _ _

lemma updateDisplays_length (c : FieldControl) (allowed : List String) :
    (updateDisplays c allowed).buttons.length = c.buttons.length := by
  rw [updateDisplays]
  dsimp only
  rw [showAllowed_length, hideAll_length]

lemma valueAt_hideAll (tbs : List ToggleButton) (j : Nat) :
    valueAt (hideAll tbs) j = valueAt tbs j := by
  rw [valueAt, valueAt, hideAll, List.get?_map]
  cases tbs.get? j <;> rfl

lemma valueAt_showAllowed :
    ∀ (tbs : List ToggleButton) (opts allowed : List String) (j : Nat),
      valueAt (showAllowed tbs opts allowed) j = valueAt tbs j := by
  intro tbs
  induction tbs with
  | nil => intro opts allowed j; cases opts <;> rfl
  | cons tb rest ih =>
      intro opts allowed j
      cases opts with
      | nil => rfl
      | cons opt opts' =>
          cases j with
          | zero =>
              rw [showAllowed]
              by_cases h : opt ∈ allowed
              · rw [if_pos h]; rfl
              · rw [if_neg h]; rfl
          | succ j =>
              rw [showAllowed, valueAt_cons_succ, valueAt_cons_succ]
              exact ih opts' allowed j

lemma valueAt_updateDisplays (c : FieldControl) (allowed : List String) (j : Nat) :
    valueAt (updateDisplays c allowed).buttons j = valueAt c.buttons j := by
  rw [updateDisplays]
  dsimp only
  rw [valueAt_showAllowed, valueAt_hideAll]

lemma displayAt_showAllowed_hideAll :
    ∀ (tbs : List ToggleButton) (opts allowed : List String)
      (j : Nat) (h1 : j < opts.length), j < tbs.length →
      displayAt (showAllowed (hideAll tbs) opts allowed) j =
        (if opts.get ⟨j, h1⟩ ∈ allowed then some "" else some "none") := by
  intro tbs
  induction tbs with
  | nil => intro opts allowed j _ h2; cases h2
  | cons tb rest ih =>
      intro opts allowed j h1 h2
      cases opts with
      | nil => cases h1
      | cons opt opts' =>
          cases j with
          | zero =>
              show displayAt
                ((if opt ∈ allowed then
                    { tb with display := some "" }
                  else { tb with display := some "none" }) ::
                  showAllowed (hideAll rest) opts' allowed) 0 = _
              have hget : (opt :: opts').get ⟨0, h1⟩ = opt := rfl
              rw [hget]
              by_cases h : opt ∈ allowed
              · rw [if_pos h, if_pos h]; rfl
              · rw [if_neg h, if_neg h]; rfl
          | succ j =>
              show displayAt (showAllowed (hideAll rest) opts' allowed) j = _
              exact ih opts' allowed j (Nat.lt_of_succ_lt_succ h1)
                (Nat.lt_of_succ_lt_succ h2)

lemma displayAt_updateDisplays (c : FieldControl) (allowed : List String)
    (j : Nat) (h1 : j < c.options.length) (h2 : j < c.buttons.length) :
    displayAt (updateDisplays c allowed).buttons j =
      (if c.options.get ⟨j, h1⟩ ∈ allowed then some "" else some "none") := by
  rw [updateDisplays]
  exact displayAt_showAllowed_hideAll c.buttons c.options allowed j h1 h2

lemma map_value_showAllowed_hideAll :
    ∀ (tbs : List ToggleButton) (opts allowed : List String),
      (showAllowed (hideAll tbs) opts allowed).map (fun tb => tb.value) =
        tbs.map (fun tb => tb.value) := by
  intro tbs
  induction tbs with
  | nil => intro opts allowed; cases opts <;> rfl
  | cons tb rest ih =>
      intro opts allowed
      cases opts with
      | nil =>
          show (hideAll (tb :: rest)).map (fun tb => tb.value) = _
          rw [hideAll, List.map_map]
          rfl
      | cons opt opts' =>
          show ((if opt ∈ allowed then _ else _) ::
            showAllowed (hideAll rest) opts' allowed).map (fun tb => tb.value) = _
          rw [List.map_cons, List.map_cons, ih opts']
          by_cases h : opt ∈ allowed
          · rw [if_pos h]
          · rw [if_neg h]

lemma checkboxGetValue_congr :
    ∀ (opts : List String) (tbs tbs' : List ToggleButton),
      tbs.map (fun tb => tb.value) = tbs'.map (fun tb => tb.value) →
      checkboxGetValue opts tbs = checkboxGetValue opts tbs' := by
  intro opts
  induction opts with
  | nil => intro tbs tbs' _; cases tbs <;> cases tbs' <;> rfl
  | cons opt rest ih =>
      intro tbs tbs' h
      cases tbs with
      | nil =>
          cases tbs' with
          | nil => rfl
          | cons tb' rest' => cases h
      | cons tb rest1 =>
          cases tbs' with
          | nil => cases h
          | cons tb' rest' =>
              rw [List.map_cons, List.map_cons] at h
              injection h with h1 h2
              rw [checkboxGetValue, checkboxGetValue, h1, ih rest1 rest' h2]

lemma radioGetValue_congr :
    ∀ (opts : List String) (tbs tbs' : List ToggleButton),
      tbs.map (fun tb => tb.value) = tbs'.map (fun tb => tb.value) →
      radioGetValue opts tbs = radioGetValue opts tbs' := by
  intro opts
  induction opts with
  | nil => intro tbs tbs' _; cases tbs <;> cases tbs' <;> rfl
  | cons opt rest ih =>
      intro tbs tbs' h
      cases tbs with
      | nil =>
          cases tbs' with
          | nil => rfl
          | cons tb' rest' => cases h
      | cons tb rest1 =>
          cases tbs' with
          | nil => cases h
          | cons tb' rest' =>
              rw [List.map_cons, List.map_cons] at h
              injection h with h1 h2
              rw [radioGetValue, radioGetValue, h1, ih rest1 rest' h2]

lemma getValue_updateDisplays (c : FieldControl) (allowed : List String) :
    getValue (updateDisplays c allowed) = getValue c := by
  rw [getValue, getValue, updateDisplays]
  cases c.kind with
  | checkbox =>
      exact checkboxGetValue_congr _ _ _ (map_value_showAllowed_hideAll _ _ _)
  | radio =>
      exact radioGetValue_congr _ _ _ (map_value_showAllowed_hideAll _ _ _)

lemma keys_onChangeStep (wd : List (String × FieldControl))
    (kv : String × List String) :
    (onChangeStep wd kv).map Prod.fst = wd.map Prod.fst := by
  rw [onChangeStep]
  induction wd with
  | nil => rfl
  | cons p rest ih =>
      rw [List.map_cons, List.map_cons, List.map_cons, ih]
      by_cases h : p.1 = kv.1
      · rw [if_pos h]
      · rw [if_neg h]

lemma keys_onChangeUpdate (response : List (String × List String)) :
    ∀ wd : List (String × FieldControl),
      (onChangeUpdate wd response).map Prod.fst = wd.map Prod.fst := by
  induction response with
  | nil => intro wd; rfl
  | cons kv rest ih =>
      intro wd
      rw [onChangeUpdate, List.foldl_cons]
      rw [show List.foldl onChangeStep (onChangeStep wd kv) rest =
        onChangeUpdate (onChangeStep wd kv) rest from rfl]
      rw [ih, keys_onChangeStep]

lemma lookup_onChangeStep_self {wd : List (String × FieldControl)}
    {key : String} {c : FieldControl} (legal : List String)
    (h : alistLookup wd key = some c) :
    alistLookup (onChangeStep wd (key, legal)) key =
      some (updateDisplays c legal) := by
  induction wd with
  | nil => simp [alistLookup] at h
  | cons p rest ih =>
      by_cases hk : p.1 = key
      · rw [alistLookup, List.find?_cons, decide_eq_true hk] at h
        cases h
        rw [onChangeStep, List.map_cons, if_pos hk, alistLookup, List.find?_cons,
          decide_eq_true hk]
        rfl
      · rw [alistLookup, List.find?_cons, decide_eq_false hk] at h
        have := ih h
        rw [onChangeStep, List.map_cons, if_neg hk, alistLookup, List.find?_cons,
          decide_eq_false hk]
        exact this

lemma lookup_onChangeStep_other {wd : List (String × FieldControl)}
    {key : String} {kv : String × List String} (h : kv.1 ≠ key) :
    alistLookup (onChangeStep wd kv) key = alistLookup wd key := by
  induction wd with
  | nil => rfl
  | cons p rest ih =>
      by_cases hk : p.1 = key
      · have hne : ¬ p.1 = kv.1 := fun he => h (he ▸ hk)
        rw [onChangeStep, List.map_cons, if_neg hne, alistLookup, List.find?_cons,
          decide_eq_true hk, alistLookup, List.find?_cons, decide_eq_true hk]
      · rw [onChangeStep, List.map_cons]
        by_cases hp : p.1 = kv.1
        · rw [if_pos hp, alistLookup, List.find?_cons]
          rw [show (decide ((p.1, updateDisplays p.2 kv.2).1 = key)) = false from
            decide_eq_false hk]
          rw [alistLookup, List.find?_cons, decide_eq_false hk]
          exact ih
        · rw [if_neg hp, alistLookup, List.find?_cons, decide_eq_false hk,
            alistLookup, List.find?_cons, decide_eq_false hk]
          exact ih

lemma lookup_onChangeUpdate_absent {response : List (String × List String)} :
    ∀ {wd : List (String × FieldControl)} {key : String},
      key ∉ response.map Prod.fst →
      alistLookup (onChangeUpdate wd response) key = alistLookup wd key := by
  induction response with
  | nil => intro wd key _; rfl
  | cons kv rest ih =>
      intro wd key h
      rw [List.map_cons, List.mem_cons] at h
      push_neg at h
      rw [onChangeUpdate, List.foldl_cons]
      rw [show List.foldl onChangeStep (onChangeStep wd kv) rest =
        onChangeUpdate (onChangeStep wd kv) rest from rfl]
      rw [ih h.2, lookup_onChangeStep_other (fun he => h.1 he.symm)]

lemma lookup_onChangeUpdate {response : List (String × List String)} :
    ∀ {wd : List (String × FieldControl)} {key : String} {legal : List String}
      {c : FieldControl},
      (response.map Prod.fst).Nodup →
      (key, legal) ∈ response →
      alistLookup wd key = some c →
      alistLookup (onChangeUpdate wd response) key =
        some (updateDisplays c legal) := by
  induction response with
  | nil => intro wd key legal c _ hmem _; cases hmem
  | cons kv rest ih =>
      intro wd key legal c hnd hmem hc
      rw [List.map_cons, List.nodup_cons] at hnd
      rw [onChangeUpdate, List.foldl_cons]
      rw [show List.foldl onChangeStep (onChangeStep wd kv) rest =
        onChangeUpdate (onChangeStep wd kv) rest from rfl]
      rcases List.mem_cons.mp hmem with heq | hrest
      · have hkey : kv = (key, legal) := heq.symm
        subst hkey
        have hnotin : key ∉ rest.map Prod.fst := hnd.1
        rw [lookup_onChangeUpdate_absent hnotin]
        exact lookup_onChangeStep_self legal hc
      · have hkv : kv.1 ≠ key := by
          intro he
          apply hnd.1
          rw [he]
          exact List.mem_map.mpr ⟨(key, legal), hrest, rfl⟩
        exact ih hnd.2 hrest (by rw [lookup_onChangeStep_other hkv]; exact hc)

lemma onChangeStep_absent {wd : List (String × FieldControl)}
    {key : String} (vs : List String) (h : key ∉ wd.map Prod.fst) :
    onChangeStep wd (key, vs) = wd := by
  induction wd with
  | nil => rfl
  | cons p rest ih =>
      rw [List.map_cons, List.mem_cons] at h
      push_neg at h
      rw [onChangeStep, List.map_cons, if_neg (fun he => h.1 he.symm)]
      rw [show List.map (fun p => if p.1 = (key, vs).1 then
        ((p : String × FieldControl).1, updateDisplays p.2 (key, vs).2) else p) rest =
          onChangeStep rest (key, vs) from rfl]
      rw [ih h.2]

/-! ## Lemmas about the selection state -/

lemma mem_updateSelectionState {wd : List (String × FieldControl)}
    {p : String × List String} (h : p ∈ updateSelectionState wd) :
    p.1 ∈ wd.map Prod.fst ∧ p.2 ≠ [] := by
  rw [updateSelectionState] at h
  rw [List.mem_filter] at h
  obtain ⟨hmem, hpred⟩ := h
  rcases List.mem_map.mp hmem with ⟨q, hq, hqp⟩
  constructor
  · rw [← hqp]
    exact List.mem_map.mpr ⟨q, hq, rfl⟩
  · intro hnil
    rw [hnil] at hpred
    simp at hpred

lemma updateSelectionState_onChangeStep (wd : List (String × FieldControl))
    (kv : String × List String) :
    updateSelectionState (onChangeStep wd kv) = updateSelectionState wd := by
  rw [updateSelectionState, updateSelectionState, onChangeStep]
  congr 1
  induction wd with
  | nil => rfl
  | cons p rest ih =>
      rw [List.map_cons, List.map_cons, List.map_cons, ih]
      by_cases h : p.1 = kv.1
      · rw [if_pos h]
        dsimp only
        rw [getValue_updateDisplays]
      · rw [if_neg h]

lemma updateSelectionState_onChangeUpdate (response : List (String × List String)) :
    ∀ wd : List (String × FieldControl),
      updateSelectionState (onChangeUpdate wd response) = updateSelectionState wd := by
  induction response with
  | nil => intro wd; rfl
  | cons kv rest ih =>
      intro wd
      rw [onChangeUpdate, List.foldl_cons]
      rw [show List.foldl onChangeStep (onChangeStep wd kv) rest =
        onChangeUpdate (onChangeStep wd kv) rest from rfl]
      rw [ih, updateSelectionState_onChangeStep]

lemma lookup_none_of_not_mem_keys {α : Type} {l : List (String × α)} {key : String}
    (h : key ∉ l.map Prod.fst) : alistLookup l key = none := by
  induction l with
  | nil => rfl
  | cons p rest ih =>
      rw [List.map_cons, List.mem_cons] at h
      push_neg at h
      rw [alistLookup, List.find?_cons, decide_eq_false (fun he => h.1 he.symm)]
      exact ih h.2

lemma alistLookup_cons_self {α : Type} {p : String × α} {rest : List (String × α)}
    {key : String} (h : p.1 = key) :
    alistLookup (p :: rest) key = some p.2 := by
  simp [alistLookup, List.find?_cons, h]

lemma alistLookup_cons_ne {α : Type} {p : String × α} {rest : List (String × α)}
    {key : String} (h : ¬ p.1 = key) :
    alistLookup (p :: rest) key = alistLookup rest key := by
  simp [alistLookup, List.find?_cons, h]

lemma updateSelectionState_cons (p : String × FieldControl)
    (rest : List (String × FieldControl)) :
    updateSelectionState (p :: rest) =
      (if (getValue p.2).isEmpty then updateSelectionState rest
        else (p.1, getValue p.2) :: updateSelectionState rest) := by
  rw [updateSelectionState, List.map_cons, List.filter_cons]
  cases hv : (getValue p.2).isEmpty with
  | true => rfl
  | false => rfl

lemma lookup_updateSelectionState {wd : List (String × FieldControl)} :
    ∀ {key : String} {c : FieldControl},
      (wd.map Prod.fst).Nodup →
      alistLookup wd key = some c →
      alistLookup (updateSelectionState wd) key =
        (if getValue c = [] then none else some (getValue c)) := by
  induction wd with
  | nil => intro key c _ hc; simp [alistLookup] at hc
  | cons p rest ih =>
      intro key c hnd hc
      rw [List.map_cons, List.nodup_cons] at hnd
      rw [updateSelectionState_cons]
      by_cases hk : p.1 = key
      · rw [alistLookup_cons_self hk] at hc
        injection hc with hc2
        subst hc2
        by_cases hval : getValue p.2 = []
        · rw [if_pos hval, if_pos (by rw [hval]; rfl)]
          apply lookup_none_of_not_mem_keys
          intro hmem
          rcases List.mem_map.mp hmem with ⟨q, hq, hqk⟩
          apply hnd.1
          rw [← hk] at hqk
          rcases mem_updateSelectionState hq with ⟨hq1, _⟩
          rw [hqk] at hq1
          exact hq1
        · rw [if_neg hval, if_neg (by
            intro hemp
            exact hval (List.isEmpty_iff.mp hemp))]
          exact alistLookup_cons_self hk
      · rw [alistLookup_cons_ne hk] at hc
        by_cases hval : (getValue p.2).isEmpty = true
        · rw [if_pos hval]
          exact ih hnd.2 hc
        · rw [if_neg hval]
          rw [show alistLookup ((p.1, getValue p.2) :: updateSelectionState rest) key =
            alistLookup (updateSelectionState rest) key from alistLookup_cons_ne hk]
          exact ih hnd.2 hc

/-! ## Lemmas about the schema translation -/

lemma keys_translate_aux (k : String) :
    ∀ (form : List RawWidget) (out : List (String × FormField)),
      k ∈ (form.foldl
        (fun out w =>
          if isIgnored w then out
          else if nameD w ∈ out.map Prod.fst then out
          else out ++ [(nameD w, translateEntry w)]) out).map Prod.fst →
      k ∈ out.map Prod.fst ∨ ∃ w ∈ form, nameD w = k ∧ isIgnored w = false := by
  intro form
  induction form with
  | nil => intro out h; exact Or.inl h
  | cons w rest ih =>
      intro out h
      rw [List.foldl_cons] at h
      rcases ih _ h with h' | ⟨w', hw', hname, hig⟩
      · by_cases hig : isIgnored w
        · rw [if_pos hig] at h'
          exact Or.inl h'
        · rw [if_neg hig] at h'
          by_cases hmem : nameD w ∈ out.map Prod.fst
          · rw [if_pos hmem] at h'
            exact Or.inl h'
          · rw [if_neg hmem] at h'
            rw [List.map_append, List.mem_append] at h'
            rcases h' with h' | h'
            · exact Or.inl h'
            · simp only [List.map_cons, List.map_nil, List.mem_singleton] at h'
              exact Or.inr ⟨w, List.mem_cons_self _ _,
                h'.symm, Bool.not_eq_true _ ▸ (by simpa using hig)⟩
      · exact Or.inr ⟨w', List.mem_cons_of_mem _ hw', hname, hig⟩

/-- Every key of the translated mapping is the name of some non-ignored
schema entry. -/
lemma mem_keys_formJsonToWidgetsDict {k : String} {form : List RawWidget}
    (h : k ∈ (formJsonToWidgetsDict form).map Prod.fst) :
    ∃ w ∈ form, nameD w = k ∧ isIgnored w = false := by
  rcases keys_translate_aux k form [] h with h' | h'
  · simp at h'
  · exact h'

/-! ## Lemmas about form construction -/

lemma buildControl_ok {f : FormField} {c : FieldControl}
    (h : buildControl f = Except.ok c) :
    c.options = f.values ∧
      ((f.type = "checkbox" ∧ c.kind = ControlKind.checkbox ∧
          c.buttons = checkboxDefaults (f.default.getD []) (initButtons f.values) f.values) ∨
        (f.type = "radio" ∧ c.kind = ControlKind.radio ∧
          c.buttons = radioDefaults (f.default.getD []) (initButtons f.values) f.values)) := by
  by_cases h1 : f.type = "checkbox"
  · rw [buildControl, if_pos h1] at h
    cases h
    exact ⟨rfl, Or.inl ⟨h1, rfl, rfl⟩⟩
  · by_cases h2 : f.type = "radio"
    · rw [buildControl, if_neg h1, if_pos h2] at h
      cases h
      exact ⟨rfl, Or.inr ⟨h2, rfl, rfl⟩⟩
    · rw [buildControl, if_neg h1, if_neg h2] at h
      cases h

lemma buildForm_keys :
    ∀ {fw : List (String × FormField)} {wd : List (String × FieldControl)},
      buildForm fw = Except.ok wd → wd.map Prod.fst = fw.map Prod.fst := by
  intro fw
  induction fw with
  | nil => intro wd h; cases h; rfl
  | cons p rest ih =>
      intro wd h
      obtain ⟨k, f⟩ := p
      rw [buildForm] at h
      cases hc : buildControl f with
      | error e => rw [hc] at h; cases h
      | ok c =>
          rw [hc] at h
          cases hr : buildForm rest with
          | error e => rw [hr] at h; cases h
          | ok others =>
              rw [hr] at h
              cases h
              simp only [List.map_cons, ih hr]

lemma buildForm_lookup :
    ∀ {fw : List (String × FormField)} {wd : List (String × FieldControl)}
      {k : String} {c : FieldControl},
      buildForm fw = Except.ok wd → alistLookup wd k = some c →
      ∃ f, alistLookup fw k = some f ∧ buildControl f = Except.ok c := by
  intro fw
  induction fw with
  | nil =>
      intro wd k c h hl
      cases h
      simp [alistLookup] at hl
  | cons p rest ih =>
      intro wd k c h hl
      obtain ⟨k', f⟩ := p
      rw [buildForm] at h
      cases hc : buildControl f with
      | error e => rw [hc] at h; cases h
      | ok c' =>
          rw [hc] at h
          cases hr : buildForm rest with
          | error e => rw [hr] at h; cases h
          | ok others =>
              rw [hr] at h
              cases h
              by_cases hk : k' = k
              · subst hk
                rw [alistLookup] at hl
                simp only [List.find?_cons, decide_True] at hl
                cases hl
                exact ⟨f, by simp [alistLookup], hc⟩
              · rw [alistLookup] at hl
                simp only [List.find?_cons] at hl
                rw [decide_eq_false hk] at hl
                have := ih hr hl
                rcases this with ⟨f', hf', hb⟩
                refine ⟨f', ?_, hb⟩
                rw [alistLookup, List.find?_cons, decide_eq_false hk]
                exact hf'

/-! ## C5 -/

/-- C5: if any translated field's kind after the raw-type lookup is neither
`"checkbox"` nor `"radio"`, `buildForm` fails with the invalid-argument
error of line 176 (`ValueError("Unsupported widget type: …")`), returning no
partial form. -/
theorem unsupported_type_aborts_build (fw : List (String × FormField))
    (p : String × FormField) (hmem : p ∈ fw)
    (h1 : p.2.type ≠ "checkbox") (h2 : p.2.type ≠ "radio") :
    ∃ t, t ≠ "checkbox" ∧ t ≠ "radio" ∧
      buildForm fw = Except.error ("Unsupported widget type: " ++ t) := by
  induction fw with
  | nil => cases hmem
  | cons q rest ih =>
      obtain ⟨k, f⟩ := q
      by_cases hf1 : f.type = "checkbox"
      · have hp : p ∈ rest := by
          rcases List.mem_cons.mp hmem with h | h
          · exfalso; apply h1; rw [h]; exact hf1
          · exact h
        rcases ih hp with ⟨t, ht1, ht2, herr⟩
        refine ⟨t, ht1, ht2, ?_⟩
        rw [buildForm]
        rw [show buildControl f = Except.ok
          { kind := ControlKind.checkbox, options := f.values,
            buttons := checkboxDefaults (f.default.getD []) (initButtons f.values) f.values }
          from by rw [buildControl, if_pos hf1], herr]
        rfl
      · by_cases hf2 : f.type = "radio"
        · have hp : p ∈ rest := by
            rcases List.mem_cons.mp hmem with h | h
            · exfalso; apply h2; rw [h]; exact hf2
            · exact h
          rcases ih hp with ⟨t, ht1, ht2, herr⟩
          refine ⟨t, ht1, ht2, ?_⟩
          rw [buildForm]
          rw [show buildControl f = Except.ok
            { kind := ControlKind.radio, options := f.values,
              buttons := radioDefaults (f.default.getD []) (initButtons f.values) f.values }
            from by rw [buildControl, if_neg hf1, if_pos hf2], herr]
          rfl
        · refine ⟨f.type, hf1, hf2, ?_⟩
          rw [buildForm]
          rw [show buildControl f = Except.error ("Unsupported widget type: " ++ f.type)
            from by rw [buildControl, if_neg hf1, if_neg hf2]]
          rfl

/-- C5 witness: the schema entry with raw type `"FooWidget"` passes through
the type lookup unchanged and makes construction fail with the
invalid-argument error. -/
theorem unsupported_type_aborts_build_witness :
    (("g", translateEntry exUnsupportedEntry) ∈
        formJsonToWidgetsDict exUnsupportedForm) ∧
      (translateEntry exUnsupportedEntry).type = "FooWidget" ∧
      (∃ t, t ≠ "checkbox" ∧ t ≠ "radio" ∧
        buildForm (formJsonToWidgetsDict exUnsupportedForm) =
          Except.error ("Unsupported widget type: " ++ t)) :=
  ⟨by decide, by decide,
    unsupported_type_aborts_build _ ("g", translateEntry exUnsupportedEntry)
      (by decide) (by decide) (by decide)⟩

/-! ## C9 -/

/-- C9 counterexample: in the schema `exDupNameForm` the second entry has
name `"x"` and the ignored raw type `"LicenceWidget"`, yet the translated
mapping does contain the key `"x"` (contributed by the first entry), so the
claim's universal statement fails at this input. -/
theorem ignored_type_duplicate_name_cex :
    exLicenceEntry ∈ exDupNameForm ∧
      typeD exLicenceEntry ∈ ignoreWidgetTypes ∧
      "x" ∈ (formJsonToWidgetsDict exDupNameForm).map Prod.fst ∧
      nameD exLicenceEntry = "x" := by decide

/-- C9 (amended): an entry matching the ignore lists is itself never
translated; its name is absent from the translated mapping provided every
entry of the schema carrying that name matches the ignore lists too (names
in the ignore-name set always do). -/
theorem ignored_entry_not_translated (form : List RawWidget) (w : RawWidget)
    (hw : w ∈ form) (hig : isIgnored w = true)
    (hall : ∀ w' ∈ form, nameD w' = nameD w → isIgnored w' = true) :
    nameD w ∉ (formJsonToWidgetsDict form).map Prod.fst := by
  intro hmem
  rcases mem_keys_formJsonToWidgetsDict hmem with ⟨w', hw', hname, hnig⟩
  rw [hall w' hw' hname] at hnig
  cases hnig

/-- C9 witness: a schema whose single entry has the ignored name
`download_format`; its name does not appear in the translated mapping. -/
theorem ignored_entry_not_translated_witness :
    (exIgnoredNameEntry ∈ [exIgnoredNameEntry] ∧
        isIgnored exIgnoredNameEntry = true) ∧
      nameD exIgnoredNameEntry ∉
        (formJsonToWidgetsDict [exIgnoredNameEntry]).map Prod.fst :=
  ⟨⟨by decide, by decide⟩,
    ignored_entry_not_translated [exIgnoredNameEntry] exIgnoredNameEntry
      (by decide) (by decide) (by decide)⟩

/-! ## C6: flattening grouped details -/

lemma seen_step_nodup {acc : List String} (h : acc.Nodup) (v : String) :
    (if v ∈ acc then acc else acc ++ [v]).Nodup := by
  by_cases hv : v ∈ acc
  · rw [if_pos hv]; exact h
  · rw [if_neg hv]
    refine List.nodup_append.mpr ⟨h, List.nodup_singleton v, ?_⟩
    intro x hx hx'
    simp only [List.mem_singleton] at hx'
    exact hv (hx' ▸ hx)

lemma seen_foldl_nodup {acc : List String} (h : acc.Nodup) :
    ∀ l : List String,
      (l.foldl (fun a v => if v ∈ a then a else a ++ [v]) acc).Nodup := by
  intro l
  induction l generalizing acc with
  | nil => exact h
  | cons v rest ih => exact ih (seen_step_nodup h v)

/-- `firstSeenDedup` really removes all duplicates. -/
lemma firstSeenDedup_nodup (l : List String) : (firstSeenDedup l).Nodup :=
  seen_foldl_nodup List.nodup_nil l

/-- The code's per-group update `values += [v for v in g if v not in values]`
agrees with value-at-a-time first-seen accumulation whenever the group's own
list `g` is duplicate-free. -/
lemma group_filter_eq_foldl {g : List String} (hg : g.Nodup) :
    ∀ acc : List String,
      acc ++ g.filter (fun v => decide (v ∉ acc)) =
        g.foldl (fun a v => if v ∈ a then a else a ++ [v]) acc := by
  induction g with
  | nil => intro acc; simp
  | cons v rest ih =>
      intro acc
      rw [List.nodup_cons] at hg
      rw [List.filter_cons, List.foldl_cons]
      by_cases hv : v ∈ acc
      · rw [if_pos hv]
        have : (decide (v ∉ acc)) = false := by simp [hv]
        rw [this]
        exact ih hg.2 acc
      · rw [if_neg hv]
        have : (decide (v ∉ acc)) = true := by simp [hv]
        rw [this]
        have hrest : rest.filter (fun x => decide (x ∉ acc)) =
            rest.filter (fun x => decide (x ∉ acc ++ [v])) := by
          apply List.filter_congr
          intro x hx
          have hxv : x ≠ v := fun h => hg.1 (h ▸ hx)
          simp [List.mem_append, hxv]
        calc acc ++ v :: rest.filter (fun x => decide (x ∉ acc))
            = (acc ++ [v]) ++ rest.filter (fun x => decide (x ∉ acc)) := by
              simp
          _ = (acc ++ [v]) ++ rest.filter (fun x => decide (x ∉ acc ++ [v])) := by
              rw [hrest]
          _ = rest.foldl (fun a v => if v ∈ a then a else a ++ [v]) (acc ++ [v]) :=
              ih hg.2 (acc ++ [v])

lemma flattenGroups_foldl_values (gs : List RawGroup)
    (hnd : ∀ g ∈ gs, (g.values.getD []).Nodup) :
    ∀ acc : FlatGroups, acc.values.Nodup →
      (gs.foldl
        (fun acc g =>
          { labels := alistUpdate acc.labels (g.labels.getD [])
            values := acc.values ++ (g.values.getD []).filter (fun v => decide (v ∉ acc.values))
            columns := max acc.columns (g.columns.getD 1) })
        acc).values =
      ((gs.map (fun g => g.values.getD [])).flatten).foldl
        (fun a v => if v ∈ a then a else a ++ [v]) acc.values := by
  induction gs with
  | nil => intro acc _; simp
  | cons g rest ih =>
      intro acc hacc
      rw [List.foldl_cons, List.map_cons, List.flatten_cons, List.foldl_append]
      rw [← group_filter_eq_foldl (hnd g (List.mem_cons_self _ _)) acc.values]
      exact ih (fun g' hg' => hnd g' (List.mem_cons_of_mem _ hg')) _
        (by rw [group_filter_eq_foldl (hnd g (List.mem_cons_self _ _)) acc.values]
            exact seen_foldl_nodup hacc _)

lemma flattenGroups_foldl_columns (gs : List RawGroup) :
    ∀ acc : FlatGroups,
      (gs.foldl
        (fun acc g =>
          { labels := alistUpdate acc.labels (g.labels.getD [])
            values := acc.values ++ (g.values.getD []).filter (fun v => decide (v ∉ acc.values))
            columns := max acc.columns (g.columns.getD 1) })
        acc).columns =
      gs.foldl (fun m g => max m (g.columns.getD 1)) acc.columns := by
  induction gs with
  | nil => intro acc; rfl
  | cons g rest ih => intro acc; rw [List.foldl_cons, List.foldl_cons]; exact ih _

lemma foldl_max_columns (gs : List RawGroup) :
    ∀ a : Nat, gs.foldl (fun m g => max m (g.columns.getD 1)) a =
      max a (listMax (gs.map (fun g => g.columns.getD 1))) := by
  induction gs with
  | nil => intro a; simp [listMax]
  | cons g rest ih =>
      intro a
      rw [List.foldl_cons, ih (max a (g.columns.getD 1))]
      have h : listMax ((g :: rest).map (fun g => g.columns.getD 1)) =
          max (g.columns.getD 1) (listMax (rest.map (fun g => g.columns.getD 1))) := rfl
      rw [h]
      omega

/-- C6 counterexample: a single group whose own value list holds a
duplicate.  The comprehension filters only against values accumulated from
*previous* groups, so the merged list is `["x", "x"]`: it is not
duplicate-free, contradicting the claim's "removing duplicates in
first-seen order". -/
theorem group_merge_duplicate_cex :
    (translateEntry exDupGroupEntry).values = ["x", "x"] ∧
      firstSeenDedup ["x", "x"] = ["x"] ∧
      ¬ (translateEntry exDupGroupEntry).values.Nodup := by
  decide

/-- C6 (amended): for an entry with grouped details, translation merges all
group label mappings, concatenates the group value lists keeping the first
occurrence of each value — a duplicate-free merge in first-seen order
provided each group's own value list is duplicate-free — and sets the column
count to the maximum declared across the groups, with a minimum of 1. -/
theorem groups_flatten_merge (w : RawWidget) (d : RawDetails) (gs : List RawGroup)
    (hd : w.details = some d) (hg : d.groups = some gs)
    (hnd : ∀ g ∈ gs, (g.values.getD []).Nodup) :
    (translateEntry w).values =
        firstSeenDedup ((gs.map (fun g => g.values.getD [])).flatten) ∧
      (translateEntry w).values.Nodup ∧
      (translateEntry w).columns =
        max 1 (listMax (gs.map (fun g => g.columns.getD 1))) := by
  have hval : (translateEntry w).values = (flattenGroups gs).values := by
    rw [translateEntry, hd]
    simp only [Option.getD_some, hg]
  have hcol : (translateEntry w).columns = (flattenGroups gs).columns := by
    rw [translateEntry, hd]
    simp only [Option.getD_some, hg]
  refine ⟨?_, ?_, ?_⟩
  · rw [hval, flattenGroups, flattenGroups_foldl_values gs hnd _ List.nodup_nil]
    rfl
  · rw [hval, flattenGroups, flattenGroups_foldl_values gs hnd _ List.nodup_nil]
    exact seen_foldl_nodup List.nodup_nil _
  · rw [hcol, flattenGroups, flattenGroups_foldl_columns gs _]
    exact foldl_max_columns gs 1

/-- C6 witness: the specification's own example,
`groups [{values:["x","y"], columns:2}, {values:["y","z"], columns:3}]`,
merges to values `["x","y","z"]` with column count `3`. -/
theorem groups_flatten_merge_witness :
    (∀ g ∈ [exGroupA, exGroupB], (g.values.getD []).Nodup) ∧
      (translateEntry exGroupsEntry).values = ["x", "y", "z"] ∧
      (translateEntry exGroupsEntry).columns = 3 :=
  ⟨by decide,
    (groups_flatten_merge exGroupsEntry _ _ rfl rfl (by decide)).1,
    (groups_flatten_merge exGroupsEntry _ _ rfl rfl (by decide)).2.2⟩

/-! ## C2: construction defaults -/

/-- C2 counterexample: a radio field with options `["a", "b"]` and default
list `["a", "b"]`.  The defaults loop runs with `on_radio_click` already
attached, so setting button `"b"` on forces button `"a"` back off: after
construction the button states are `[false, true]`, although `"a"` is in the
default list — the claimed "on iff in the default list" fails. -/
theorem radio_multi_default_cex :
    Except.map (fun c => c.buttons.map (fun tb => tb.value))
        (buildControl exMultiDefaultField) = Except.ok [false, true] ∧
      "a" ∈ exMultiDefaultField.default.getD [] ∧
      exMultiDefaultField.values.get ⟨0, by decide⟩ = "a" :=
  ⟨by rfl, by decide, by decide⟩

/-- C2 (amended): construction builds one toggle button per option value;
for a checkbox field a button ends on iff its option is in the default
list; for a radio field the mutual-exclusion callback runs while the
defaults are applied, so a button ends on iff its option is in the default
list *and* no later option is (only the last default survives — when the
default list selects at most one option this is again "on iff in the
default list"). -/
theorem control_construction_defaults (f : FormField) (c : FieldControl)
    (h : buildControl f = Except.ok c) :
    c.buttons.length = f.values.length ∧
      (c.kind = ControlKind.checkbox →
        ∀ j (hj : j < f.values.length),
          valueAt c.buttons j = decide (f.values.get ⟨j, hj⟩ ∈ f.default.getD [])) ∧
      (c.kind = ControlKind.radio →
        ∀ j, (valueAt c.buttons j = true ↔
          ∃ hj : j < f.values.length, f.values.get ⟨j, hj⟩ ∈ f.default.getD [] ∧
            ∀ u (hu : u < f.values.length), j < u →
              f.values.get ⟨u, hu⟩ ∉ f.default.getD [])) := by
  rcases buildControl_ok h with ⟨hopt, hcase⟩
  rcases hcase with ⟨htype, hkind, hbtn⟩ | ⟨htype, hkind, hbtn⟩
  · refine ⟨?_, ?_, ?_⟩
    · rw [hbtn, checkboxDefaults_length, initButtons_length]
    · intro _ j hj
      rw [hbtn]
      exact checkboxDefaults_valueAt _ _ _ j hj (by rw [initButtons_length]; exact hj)
    · intro hk
      rw [hkind] at hk
      exact ControlKind.noConfusion hk
  · refine ⟨?_, ?_, ?_⟩
    · rw [hbtn, radioDefaults_length]
    · intro hk
      rw [hkind] at hk
      exact ControlKind.noConfusion hk
    · intro _ j
      rw [hbtn]
      exact radioDefaults_valueAt _ _ j

/-- C2 witness: the checkbox field with default `["b"]` builds one button
per option, off for `"a"` and on for `"b"`. -/
theorem control_construction_defaults_witness :
    buildControl exCheckboxField = Except.ok exCheckboxControl ∧
      (exCheckboxControl.buttons.length = exCheckboxField.values.length ∧
        (exCheckboxControl.kind = ControlKind.checkbox →
          ∀ j (hj : j < exCheckboxField.values.length),
            valueAt exCheckboxControl.buttons j =
              decide (exCheckboxField.values.get ⟨j, hj⟩ ∈
                exCheckboxField.default.getD [])) ∧
        (exCheckboxControl.kind = ControlKind.radio →
          ∀ j, (valueAt exCheckboxControl.buttons j = true ↔
            ∃ hj : j < exCheckboxField.values.length,
              exCheckboxField.values.get ⟨j, hj⟩ ∈ exCheckboxField.default.getD [] ∧
                ∀ u (hu : u < exCheckboxField.values.length), j < u →
                  exCheckboxField.values.get ⟨u, hu⟩ ∉
                    exCheckboxField.default.getD []))) :=
  ⟨by rfl, control_construction_defaults exCheckboxField exCheckboxControl (by rfl)⟩

/-! ## C3: radio mutual exclusion and extraction -/

/-- C3: for a radio field built by construction (defaults applied under the
mutual-exclusion callback), after any sequence of toggle-button events at
most one sub-control is on; extraction (`radioGetValue`) never returns more
than one value, returns `[]` exactly when no zipped toggle is on, and
returns `[o]` exactly when `o` is the option of the first toggle that is
on. -/
theorem radio_mutual_exclusion (opts defaults : List String)
    (events : List (Nat × Bool)) (s : List ToggleButton)
    (hs : s = events.foldl (fun tbs e => radioAssign tbs e.1 e.2)
        (radioDefaults defaults (initButtons opts) opts)) :
    countOn s ≤ 1 ∧
      (radioGetValue opts s).length ≤ 1 ∧
      (radioGetValue opts s = [] ↔ ∀ p ∈ opts.zip s, p.2.value = false) ∧
      ∀ o, (radioGetValue opts s = [o] ↔
        ∃ (i : Nat) (h1 : i < opts.length) (h2 : i < s.length),
          opts.get ⟨i, h1⟩ = o ∧ (s.get ⟨i, h2⟩).value = true ∧
            ∀ u (hu : u < s.length), u < i → (s.get ⟨u, hu⟩).value = false) := by
  refine ⟨?_, radioGetValue_length opts s, radioGetValue_nil_iff opts s,
    fun o => radioGetValue_singleton_iff opts s o⟩
  rw [hs]
  exact countOn_foldl_radioAssign events (countOn_radioDefaults defaults opts)

/-- C3 witness: two events on a two-option radio group built with default
`["a"]`: turning `"b"` on forces `"a"` off, and extraction returns `["b"]`. -/
theorem radio_mutual_exclusion_witness :
    ([((1 : Nat), true)].foldl (fun tbs e => radioAssign tbs e.1 e.2)
        (radioDefaults ["a"] (initButtons ["a", "b"]) ["a", "b"])
      = [((1 : Nat), true)].foldl (fun tbs e => radioAssign tbs e.1 e.2)
        (radioDefaults ["a"] (initButtons ["a", "b"]) ["a", "b"])) ∧
      (countOn ([((1 : Nat), true)].foldl (fun tbs e => radioAssign tbs e.1 e.2)
          (radioDefaults ["a"] (initButtons ["a", "b"]) ["a", "b"])) ≤ 1 ∧
        (radioGetValue ["a", "b"]
            ([((1 : Nat), true)].foldl (fun tbs e => radioAssign tbs e.1 e.2)
              (radioDefaults ["a"] (initButtons ["a", "b"]) ["a", "b"]))).length ≤ 1) ∧
      radioGetValue ["a", "b"]
          ([((1 : Nat), true)].foldl (fun tbs e => radioAssign tbs e.1 e.2)
            (radioDefaults ["a"] (initButtons ["a", "b"]) ["a", "b"])) = ["b"] :=
  ⟨rfl,
    ⟨(radio_mutual_exclusion ["a", "b"] ["a"] [((1 : Nat), true)] _ rfl).1,
      (radio_mutual_exclusion ["a", "b"] ["a"] [((1 : Nat), true)] _ rfl).2.1⟩,
    by decide⟩

/-! ## C4: checkbox fields under a constraint response -/

/-- C4: on a constraint update, a checkbox-group field named in the
evaluator's response keeps every sub-control (same count, same toggle
values — identity is preserved, nothing is removed), while the display of
the sub-control at each option index becomes hidden (`display = "none"`)
when the option is no longer legal and shown (`display = ""`) when it is
legal. -/
theorem checkbox_update_hides_and_shows (wd : List (String × FieldControl))
    (response : List (String × List String)) (key : String)
    (legal : List String) (c : FieldControl)
    (hresp : (response.map Prod.fst).Nodup)
    (hmem : (key, legal) ∈ response)
    (hc : alistLookup wd key = some c)
    (hkind : c.kind = ControlKind.checkbox)
    (hlen : c.buttons.length = c.options.length) :
    alistLookup (onChangeUpdate wd response) key = some (updateDisplays c legal) ∧
      (updateDisplays c legal).buttons.length = c.buttons.length ∧
      (∀ j, valueAt (updateDisplays c legal).buttons j = valueAt c.buttons j) ∧
      (∀ j (h1 : j < c.options.length),
        displayAt (updateDisplays c legal).buttons j =
          (if c.options.get ⟨j, h1⟩ ∈ legal then some "" else some "none")) := by
  refine ⟨lookup_onChangeUpdate hresp hmem hc, updateDisplays_length c legal,
    fun j => valueAt_updateDisplays c legal j, fun j h1 => ?_⟩
  exact displayAt_updateDisplays c legal j h1 (by rw [hlen]; exact h1)

/-- C4 witness: a two-option checkbox group and the response `{variable:
["b"]}`: button 0 (`"a"`) is hidden and button 1 (`"b"`) is shown, with
values and count untouched. -/
theorem checkbox_update_hides_and_shows_witness :
    ((([("variable", ["b"])] : List (String × List String)).map
          Prod.fst).Nodup ∧
        ("variable", ["b"]) ∈ ([("variable", ["b"])] : List (String × List String)) ∧
        alistLookup exVariableWd "variable" = some exVariableControl ∧
        exVariableControl.kind = ControlKind.checkbox ∧
        exVariableControl.buttons.length = exVariableControl.options.length) ∧
      (alistLookup (onChangeUpdate exVariableWd [("variable", ["b"])]) "variable" =
          some (updateDisplays exVariableControl ["b"]) ∧
        (updateDisplays exVariableControl ["b"]).buttons.length =
          exVariableControl.buttons.length ∧
        (∀ j, valueAt (updateDisplays exVariableControl ["b"]).buttons j =
          valueAt exVariableControl.buttons j) ∧
        (∀ j (h1 : j < exVariableControl.options.length),
          displayAt (updateDisplays exVariableControl ["b"]).buttons j =
            (if exVariableControl.options.get ⟨j, h1⟩ ∈ ["b"] then some ""
              else some "none"))) :=
  ⟨⟨by decide, by decide, by rfl, by rfl, by rfl⟩,
    checkbox_update_hides_and_shows exVariableWd [("variable", ["b"])]
      "variable" ["b"] exVariableControl (by decide) (by decide) (by rfl)
      (by rfl) (by rfl)⟩

/-! ## C10: response keys with no rendered control -/

/-- C10: a field name in the evaluator's response that matches no stored
widget is skipped: the `if key in self.widget_defs` guard makes that loop
iteration a no-op (the preceding `form_widgets.get(key, {})` is a defaulted
read, so nothing raises), and the rest of the response is processed as if
the entry were absent. -/
theorem unknown_response_key_skipped (wd : List (String × FieldControl))
    (key : String) (vs : List String) (h : key ∉ wd.map Prod.fst) :
    onChangeStep wd (key, vs) = wd ∧
      ∀ response : List (String × List String),
        onChangeUpdate wd ((key, vs) :: response) = onChangeUpdate wd response := by
  refine ⟨onChangeStep_absent vs h, fun response => ?_⟩
  rw [onChangeUpdate, List.foldl_cons, onChangeStep_absent vs h]
  rfl

/-- C10 witness: a response naming only the unknown field `"zzz"` leaves the
one-field widget set unchanged. -/
theorem unknown_response_key_skipped_witness :
    ("zzz" ∉ exVariableWd.map Prod.fst) ∧
      (onChangeStep exVariableWd ("zzz", ["a"]) = exVariableWd ∧
        ∀ response : List (String × List String),
          onChangeUpdate exVariableWd (("zzz", ["a"]) :: response) =
            onChangeUpdate exVariableWd response) :=
  ⟨by decide, unknown_response_key_skipped exVariableWd "zzz" ["a"] (by decide)⟩

/-! ## C1: radio fields under a constraint response -/

/-- C1 counterexample.  Build the form for `exRadioForm`: the radio field
`"f"` has `"a"` chosen.  Apply the constraint response `{f: ["b"]}`, which
no longer includes the chosen option.  Every stored widget is a
`VBox`/`GridBox` of toggle buttons, so `on_change`'s first branch handles
the field (the `widgets.RadioButtons` branch is unreachable): the illegal
button is merely hidden, its value is not cleared, and the subsequent
recompute still contains the entry `f ↦ ["a"]` — the claim says it would
contain no entry for `"f"`. -/
theorem radio_narrow_keeps_entry_cex :
    Except.map (fun wd => (alistLookup wd "f").map getValue)
        (buildForm (formJsonToWidgetsDict exRadioForm)) =
      Except.ok (some ["a"]) ∧
      ("a" ∉ (["b"] : List String)) ∧
      Except.map (fun wd =>
          alistLookup (updateSelectionState (onChangeUpdate wd [("f", ["b"])])) "f")
        (buildForm (formJsonToWidgetsDict exRadioForm)) =
      Except.ok (some ["a"]) :=
  ⟨by rfl, by decide, by rfl⟩

/-- C1 (amended): a radio field named in the evaluator's response is handled
by the same toggle-grid branch as a checkbox group (the `RadioButtons`
branch of `on_change` is unreachable for the widgets `_build_form` stores):
its sub-controls are hidden or shown according to the legal values, every
toggle value is left unchanged, and the subsequent recompute of the
selection state still maps the field to its previous extracted value — the
field's value is *not* cleared, even when the chosen option is no longer
legal. -/
theorem radio_update_keeps_value (wd : List (String × FieldControl))
    (response : List (String × List String)) (key : String)
    (legal : List String) (c : FieldControl)
    (hwd : (wd.map Prod.fst).Nodup)
    (hresp : (response.map Prod.fst).Nodup)
    (hmem : (key, legal) ∈ response)
    (hc : alistLookup wd key = some c)
    (hkind : c.kind = ControlKind.radio)
    (hlen : c.buttons.length = c.options.length) :
    alistLookup (onChangeUpdate wd response) key = some (updateDisplays c legal) ∧
      (∀ j, valueAt (updateDisplays c legal).buttons j = valueAt c.buttons j) ∧
      (∀ j (h1 : j < c.options.length),
        displayAt (updateDisplays c legal).buttons j =
          (if c.options.get ⟨j, h1⟩ ∈ legal then some "" else some "none")) ∧
      alistLookup (updateSelectionState (onChangeUpdate wd response)) key =
        (if getValue c = [] then none else some (getValue c)) := by
  refine ⟨lookup_onChangeUpdate hresp hmem hc,
    fun j => valueAt_updateDisplays c legal j,
    fun j h1 => displayAt_updateDisplays c legal j h1 (by rw [hlen]; exact h1), ?_⟩
  rw [updateSelectionState_onChangeUpdate]
  exact lookup_updateSelectionState hwd hc

/-- C1 witness: the radio control with `"a"` chosen and the response
`{f: ["b"]}`: the update hides button `"a"`, shows button `"b"`, leaves the
values `[true, false]` alone, and the recomputed selection state still maps
`"f"` to `["a"]`. -/
theorem radio_update_keeps_value_witness :
    ((exRadioWd.map Prod.fst).Nodup ∧
        alistLookup exRadioWd "f" = some exRadioControl ∧
        getValue exRadioControl = ["a"]) ∧
      (alistLookup (onChangeUpdate exRadioWd [("f", ["b"])]) "f" =
          some (updateDisplays exRadioControl ["b"]) ∧
        (∀ j, valueAt (updateDisplays exRadioControl ["b"]).buttons j =
          valueAt exRadioControl.buttons j) ∧
        (∀ j (h1 : j < exRadioControl.options.length),
          displayAt (updateDisplays exRadioControl ["b"]).buttons j =
            (if exRadioControl.options.get ⟨j, h1⟩ ∈ ["b"] then some ""
              else some "none")) ∧
        alistLookup (updateSelectionState (onChangeUpdate exRadioWd [("f", ["b"])])) "f" =
          (if getValue exRadioControl = [] then none
            else some (getValue exRadioControl))) :=
  ⟨⟨by decide, by rfl, by rfl⟩,
    radio_update_keeps_value exRadioWd [("f", ["b"])] "f" ["b"] exRadioControl
      (by decide) (by decide) (by decide) (by rfl) (by rfl) (by rfl)⟩

/-! ## C7: the public selection mapping -/

lemma keys_map_toggle (key : String) (i : Nat) (b : Bool) :
    ∀ wd : List (String × FieldControl),
      (wd.map (fun p => if p.1 = key then (p.1, clickAssign p.2 i b) else p)).map
          Prod.fst = wd.map Prod.fst := by
  intro wd
  induction wd with
  | nil => rfl
  | cons p rest ih =>
      rw [List.map_cons, List.map_cons, List.map_cons, ih]
      by_cases h : p.1 = key
      · rw [if_pos h]
      · rw [if_neg h]

lemma clickStep_inv {keys0 : List String} {st : ControllerState}
    (hwd : st.widget_defs.map Prod.fst = keys0)
    (hreq : ∀ p ∈ st.request, p.1 ∈ keys0 ∧ p.2 ≠ [])
    (ev : String × Nat × List (String × List String)) :
    (clickStep st ev).widget_defs.map Prod.fst = keys0 ∧
      ∀ p ∈ (clickStep st ev).request, p.1 ∈ keys0 ∧ p.2 ≠ [] := by
  have hfire : ∀ b : Bool,
      (onChangeUpdate (st.widget_defs.map (fun p =>
          if p.1 = ev.1 then (p.1, clickAssign p.2 ev.2.1 b) else p)) ev.2.2).map
        Prod.fst = keys0 ∧
      ∀ p ∈ updateSelectionState (onChangeUpdate (st.widget_defs.map (fun p =>
          if p.1 = ev.1 then (p.1, clickAssign p.2 ev.2.1 b) else p)) ev.2.2),
        p.1 ∈ keys0 ∧ p.2 ≠ [] := by
    intro b
    have hk1 : (st.widget_defs.map (fun p =>
        if p.1 = ev.1 then (p.1, clickAssign p.2 ev.2.1 b) else p)).map
        Prod.fst = keys0 := by rw [keys_map_toggle]; exact hwd
    constructor
    · rw [keys_onChangeUpdate]; exact hk1
    · intro p hp
      rcases mem_updateSelectionState hp with ⟨hpk, hpv⟩
      rw [keys_onChangeUpdate, hk1] at hpk
      exact ⟨hpk, hpv⟩
  rw [clickStep]
  cases h1 : alistLookup st.widget_defs ev.1 with
  | none => exact ⟨hwd, hreq⟩
  | some c =>
      dsimp only
      cases h2 : c.buttons.get? ev.2.1 with
      | none => exact ⟨hwd, hreq⟩
      | some tb =>
          dsimp only
          cases hb : tb.value with
          | false =>
              simp only [Bool.not_false]
              cases hck : c.kind with
              | checkbox => exact hfire true
              | radio => exact hfire true
          | true =>
              simp only [Bool.not_true]
              cases hck : c.kind with
              | checkbox => exact hfire false
              | radio =>
                  have hk1 : (st.widget_defs.map (fun p =>
                      if p.1 = ev.1 then (p.1, clickAssign p.2 ev.2.1 false) else p)).map
                      Prod.fst = keys0 := by rw [keys_map_toggle]; exact hwd
                  exact ⟨hk1, hreq⟩

lemma clicks_inv (events : List (String × Nat × List (String × List String))) :
    ∀ {keys0 : List String} {st : ControllerState},
      st.widget_defs.map Prod.fst = keys0 →
      (∀ p ∈ st.request, p.1 ∈ keys0 ∧ p.2 ≠ []) →
      (events.foldl clickStep st).widget_defs.map Prod.fst = keys0 ∧
        ∀ p ∈ (events.foldl clickStep st).request, p.1 ∈ keys0 ∧ p.2 ≠ [] := by
  induction events with
  | nil => intro keys0 st hwd hreq; exact ⟨hwd, hreq⟩
  | cons ev rest ih =>
      intro keys0 st hwd hreq
      rw [List.foldl_cons]
      obtain ⟨h1, h2⟩ := clickStep_inv hwd hreq ev
      exact ih h1 h2

/-- C7 counterexample: click the only radio button of field `"g"` on (the
request becomes `{g: ["a"]}`), then click it off.  The off-click does not
run `on_change` (`on_radio_click` acts only when `change["new"]` is true),
so the public request keeps the entry `g ↦ ["a"]` although the field's
extracted value is now `[]` — an entry for a field with an empty extracted
value is present, falsifying the claim. -/
theorem stale_request_after_radio_off_cex :
    Except.map (fun wd =>
        ((clickStep (clickStep (initialState wd) ("g", 0, [])) ("g", 0, [])).request,
          (alistLookup (clickStep (clickStep (initialState wd) ("g", 0, []))
              ("g", 0, [])).widget_defs "g").map getValue))
      (buildForm (formJsonToWidgetsDict exRadioOffForm)) =
      Except.ok ([("g", ["a"])], some []) := by rfl

/-- C7 (amended): after initialization and after every interaction, every
key of the public request names a non-ignored rendered field and maps to a
non-empty stored list.  (The stronger claim — that the request never holds
an entry for a field whose *current* extracted value is empty — fails: a
radio toggle clicked off skips the change callback, leaving a stale entry
until the next callback runs; see the counterexample.) -/
theorem selection_state_keys (form : List RawWidget)
    (wd : List (String × FieldControl))
    (h : buildForm (formJsonToWidgetsDict form) = Except.ok wd)
    (events : List (String × Nat × List (String × List String)))
    (p : String × List String)
    (hp : p ∈ (events.foldl clickStep (initialState wd)).request) :
    p.2 ≠ [] ∧
      p.1 ∈ (events.foldl clickStep (initialState wd)).widget_defs.map Prod.fst ∧
      ∃ w ∈ form, nameD w = p.1 ∧ isIgnored w = false := by
  have hinit_wd : (initialState wd).widget_defs.map Prod.fst = wd.map Prod.fst := rfl
  have hinit_req : ∀ q ∈ (initialState wd).request,
      q.1 ∈ wd.map Prod.fst ∧ q.2 ≠ [] := by
    intro q hq
    exact mem_updateSelectionState hq
  obtain ⟨hkeys, hreq⟩ := clicks_inv events hinit_wd hinit_req
  obtain ⟨hpk, hpv⟩ := hreq p hp
  refine ⟨hpv, ?_, ?_⟩
  · rw [hkeys]; exact hpk
  · have hfw : p.1 ∈ (formJsonToWidgetsDict form).map Prod.fst := by
      rw [← buildForm_keys h]
      exact hpk
    exact mem_keys_formJsonToWidgetsDict hfw

/-- C7 witness: on the scenario schema, after toggling `"a"` on, the one
request entry `("variable", ["a"])` is non-empty and names the rendered,
non-ignored field `variable`. -/
theorem selection_state_keys_witness :
    (buildForm (formJsonToWidgetsDict exVariableForm) = Except.ok exVariableWd ∧
        ("variable", ["a"]) ∈
          ([(("variable" : String), (0 : Nat),
              ([] : List (String × List String)))].foldl clickStep
            (initialState exVariableWd)).request) ∧
      ((("variable" : String), (["a"] : List String)).2 ≠ [] ∧
        (("variable" : String), (["a"] : List String)).1 ∈
          ([(("variable" : String), (0 : Nat),
              ([] : List (String × List String)))].foldl clickStep
            (initialState exVariableWd)).widget_defs.map Prod.fst ∧
        ∃ w ∈ exVariableForm,
          nameD w = (("variable" : String), (["a"] : List String)).1 ∧
            isIgnored w = false) :=
  ⟨⟨by rfl, by decide⟩,
    selection_state_keys exVariableForm exVariableWd (by rfl)
      [(("variable" : String), (0 : Nat), ([] : List (String × List String)))]
      (("variable" : String), (["a"] : List String)) (by decide)⟩

/-! ## C8: checkbox extraction -/

lemma checkboxGetValue_sublist :
    ∀ (opts : List String) (tbs : List ToggleButton),
      (checkboxGetValue opts tbs).Sublist opts := by
  intro opts
  induction opts with
  | nil => intro tbs; cases tbs <;> exact List.Sublist.refl []
  | cons opt rest ih =>
      intro tbs
      cases tbs with
      | nil => exact List.nil_sublist _
      | cons tb tbs' =>
          rw [checkboxGetValue]
          by_cases h : tb.value
          · rw [if_pos h]
            exact List.Sublist.cons₂ opt (ih tbs')
          · rw [if_neg h]
            exact List.Sublist.cons opt (ih tbs')

lemma mem_checkboxGetValue :
    ∀ (opts : List String) (tbs : List ToggleButton) (o : String),
      (o ∈ checkboxGetValue opts tbs ↔
        ∃ p ∈ opts.zip tbs, p.1 = o ∧ p.2.value = true) := by
  intro opts
  induction opts with
  | nil => intro tbs o; cases tbs <;> simp [checkboxGetValue]
  | cons opt rest ih =>
      intro tbs o
      cases tbs with
      | nil => simp [checkboxGetValue]
      | cons tb tbs' =>
          rw [checkboxGetValue, List.zip_cons_cons]
          by_cases h : tb.value
          · rw [if_pos h]
            rw [List.mem_cons, ih tbs' o]
            constructor
            · rintro (rfl | ⟨p, hp, h1, h2⟩)
              · exact ⟨(o, tb), List.mem_cons_self _ _, rfl, h⟩
              · exact ⟨p, List.mem_cons_of_mem _ hp, h1, h2⟩
            · rintro ⟨p, hp, h1, h2⟩
              rcases List.mem_cons.mp hp with rfl | hp'
              · exact Or.inl h1.symm
              · exact Or.inr ⟨p, hp', h1, h2⟩
          · rw [if_neg h]
            rw [ih tbs' o]
            constructor
            · rintro ⟨p, hp, h1, h2⟩
              exact ⟨p, List.mem_cons_of_mem _ hp, h1, h2⟩
            · rintro ⟨p, hp, h1, h2⟩
              rcases List.mem_cons.mp hp with rfl | hp'
              · exact absurd h2 (by simpa using h)
              · exact ⟨p, hp', h1, h2⟩

/-- C8: checkbox extraction returns exactly the options whose sub-control is
on, in the original declared order (the result is a sublist of the option
list, and an option is extracted iff a zipped pair with it is on); and on
the specification's scenario schema the initial selection state is empty,
while toggling `"a"` on yields `{variable: ["a"]}`. -/
theorem checkbox_extraction_order (opts : List String) (tbs : List ToggleButton) :
    (checkboxGetValue opts tbs).Sublist opts ∧
      (∀ o, o ∈ checkboxGetValue opts tbs ↔
        ∃ p ∈ opts.zip tbs, p.1 = o ∧ p.2.value = true) ∧
      Except.map (fun wd => (initialState wd).request)
          (buildForm (formJsonToWidgetsDict exVariableForm)) = Except.ok [] ∧
      Except.map (fun wd =>
          (clickStep (initialState wd) ("variable", 0, [])).request)
          (buildForm (formJsonToWidgetsDict exVariableForm)) =
        Except.ok [("variable", ["a"])] :=
  ⟨checkboxGetValue_sublist opts tbs, fun o => mem_checkboxGetValue opts tbs o,
    by rfl, by rfl⟩

end JupyterForm
